import Mathlib

/-!
Verification development for the glTF serialization core (src/gltf.ts,
src/texture.ts).  The TypeScript source is shallowly embedded: mutable
document state (`glTF`) becomes explicit state passing, JS numbers become
rationals (`ℚ`) with the `|0` truncation modelled explicitly where it
occurs, thrown exceptions become `Except`/error results that carry the
state reached at the throw point, and the external collaborator classes
(Mesh, Node, Scene, Texture, ...) become plain data per their use sites.
-/

set_option maxHeartbeats 1000000

/-- Decidable equality for Except results, so that concrete builds can be
checked by `decide`. -/
instance {ε α : Type} [DecidableEq ε] [DecidableEq α] : DecidableEq (Except ε α) := fun x y =>
  match x, y with
  | .ok a, .ok b =>
      if h : a = b then isTrue (by rw [h])
      else isFalse (by intro hh; cases hh; exact h rfl)
  | .error a, .error b =>
      if h : a = b then isTrue (by rw [h])
      else isFalse (by intro hh; cases hh; exact h rfl)
  | .ok _, .error _ => isFalse (by intro hh; cases hh)
  | .error _, .ok _ => isFalse (by intro hh; cases hh)

namespace GltfJsUtils

/-- Component types from src/types.ts (collaborator); only the two values
used by gltf.ts are modelled. -/
inductive ComponentType where
  | FLOAT
  | UNSIGNED_BYTE
  deriving DecidableEq

/-- Accessor element shapes from src/types.ts. -/
inductive DataType where
  | SCALAR
  | VEC2
  | VEC3
  | VEC4
  deriving DecidableEq

/-- Mesh topology modes from src/types.ts; gltf.ts only accepts TRIANGLES. -/
inductive MeshMode where
  | POINTS
  | LINES
  | TRIANGLES
  | TRIANGLE_STRIP
  | TRIANGLE_FAN
  deriving DecidableEq

/-- Vertex coloring modes of a material, from src/types.ts. -/
inductive VertexColorMode where
  | NoColors
  | FaceColors
  | VertexColors
  deriving DecidableEq

/-- Material alpha modes, from src/types.ts. -/
inductive AlphaMode where
  | OPAQUE
  | MASK
  | BLEND
  deriving DecidableEq

/-- Image output strategies, from src/types.ts. -/
inductive ImageOutputType where
  | GLB
  | DataURI
  | External
  deriving DecidableEq

/-- Buffer output strategies, from src/types.ts. -/
inductive BufferOutputType where
  | GLB
  | DataURI
  | External
  deriving DecidableEq

/-- Texture coordinate wrapping modes, from src/types.ts. -/
inductive WrappingMode where
  | CLAMP_TO_EDGE
  | MIRRORED_REPEAT
  | REPEAT
  deriving DecidableEq

/-- A 3-component vector as exposed by the collaborator math library
(node.getTranslation() / getScale() return one; toArray gives [x, y, z]). -/
structure Vector3 where
  x : ℚ
  y : ℚ
  z : ℚ
  deriving DecidableEq

/-- A quaternion as exposed by the collaborator math library
(node.getRotationQuaternion(); toArray gives [x, y, z, w]). -/
structure Quaternion where
  x : ℚ
  y : ℚ
  z : ℚ
  w : ℚ
  deriving DecidableEq

/-- An RGB or RGBA color value (src/types.ts collaborators RGBColor /
RGBAColor).  gltf.ts distinguishes the two with the JS test `"a" in color`,
which the constructor tag models. -/
inductive Color where
  | rgb (r g b : ℚ)
  | rgba (r g b a : ℚ)
  deriving DecidableEq

/-- Modelled from the spec: `new RGBColor()` (src/types.ts, absent from src/)
defaults to black (0, 0, 0) — "a missing color defaulting to black (0,0,0)". -/
def RGBColorDefault : Color := .rgb 0 0 0

/-- A vertex of the face stream (src/vertex.ts collaborator), per its use in
addMesh: position, normal, texture coordinates, optional per-vertex color. -/
structure Vertex where
  x : ℚ
  y : ℚ
  z : ℚ
  normalX : ℚ
  normalY : ℚ
  normalZ : ℚ
  u : ℚ
  v : ℚ
  color : Option Color
  deriving DecidableEq

/-- One face delivered by mesh.forEachFace: three vertices, an optional face
color, and a material index into the mesh's own material list (negative is
the "no material" sentinel; the code tests `materialIndex >= 0`). -/
structure Face where
  v1 : Vertex
  v2 : Vertex
  v3 : Vertex
  color : Option Color
  materialIndex : ℤ
  deriving DecidableEq

/-- An image argument: an HTMLImageElement/HTMLCanvasElement handle or a
pass-through `\x7b uri \x7d` object.  JS object identity (`===`) is modelled by
structural equality with `id` as the distinguishing tag: distinct runtime
objects carry distinct ids.  `uri = none` models a raw image element. -/
structure ImageHandle where
  id : ℕ
  uri : Option String
  deriving DecidableEq

/-- The Texture class from src/texture.ts: wrap modes (defaulting to
CLAMP_TO_EDGE), optional magFilter/minFilter, and the image. -/
structure Texture where
  wrapS : WrappingMode
  wrapT : WrappingMode
  magFilter : Option ℤ
  minFilter : Option ℤ
  image : ImageHandle
  deriving DecidableEq

/-- The pbrMetallicRoughness block of a Material (src/material.ts
collaborator), per its use in addMaterial: scalar factors are spread into
the output and the base color texture is registered recursively. -/
structure PbrMetallicRoughness where
  metallicFactor : Option ℚ
  roughnessFactor : Option ℚ
  baseColorTexture : Option Texture
  deriving DecidableEq

/-- The Material collaborator (src/material.ts), per its use in addMaterial
and addMesh. -/
structure Material where
  name : Option String
  alphaMode : AlphaMode
  alphaCutoff : ℚ
  doubleSided : Bool
  vertexColorMode : VertexColorMode
  pbrMetallicRoughness : Option PbrMetallicRoughness
  deriving DecidableEq

/-- The Mesh collaborator (src/mesh.ts): a topology mode, the mesh-local
material list, and the face stream delivered by forEachFace in order. -/
structure Mesh where
  mode : MeshMode
  material : List Material
  faces : List Face
  deriving DecidableEq

mutual
/-- The Node collaborator (src/node.ts): name, decomposed transform, and
either a mesh or child nodes (addNode checks the mesh first). -/
inductive Node where
  | mk (name : Option String) (translation : Vector3) (rotation : Quaternion)
      (scale : Vector3) (mesh : Option Mesh) (children : NodeList)

/-- Children of a Node, as a mutually inductive list so that the node walk
can recurse structurally. -/
inductive NodeList where
  | nil
  | cons (n : Node) (ns : NodeList)
end

def Node.name : Node → Option String
  | .mk n _ _ _ _ _ => n

def Node.getTranslation : Node → Vector3
  | .mk _ t _ _ _ _ => t

def Node.getRotationQuaternion : Node → Quaternion
  | .mk _ _ r _ _ _ => r

def Node.getScale : Node → Vector3
  | .mk _ _ _ s _ _ => s

def Node.mesh : Node → Option Mesh
  | .mk _ _ _ _ m _ => m

def Node.children : Node → NodeList
  | .mk _ _ _ _ _ c => c

/-- The Scene collaborator (src/scene.ts): a name and its root nodes
(forEachScene / forEachNode iteration order). -/
structure Scene where
  name : Option String
  nodes : NodeList

/-- The GLTFAsset collaborator (src/asset.ts): default scene index and the
scene list. -/
structure GLTFAsset where
  defaultScene : ℕ
  scenes : List Scene

/-- Serialized scene entry (glTFScene in src/gltftypes.ts): fields created
lazily, so absent fields are `none`. -/
structure glTFScene where
  name : Option String := none
  nodes : Option (List ℕ) := none
  deriving DecidableEq

/-- Serialized node entry (glTFNode): transform fields are present only when
they deviate from the identity; mesh and children are set after the push. -/
structure glTFNode where
  name : Option String := none
  translation : Option (List ℚ) := none
  rotation : Option (List ℚ) := none
  scale : Option (List ℚ) := none
  mesh : Option ℕ := none
  children : Option (List ℕ) := none
  deriving DecidableEq

/-- Primitive attribute map: POSITION/NORMAL/TEXCOORD_0 always present,
COLOR_0 only for vertex-colored materials. -/
structure glTFAttributes where
  POSITION : ℕ
  NORMAL : ℕ
  TEXCOORD_0 : ℕ
  COLOR_0 : Option ℕ := none
  deriving DecidableEq

/-- Serialized mesh primitive (glTFMeshPrimitives): attribute map, topology
mode, optional material index (the number the code assigns). -/
structure glTFMeshPrimitives where
  attributes : glTFAttributes
  mode : MeshMode
  material : Option ℤ := none
  deriving DecidableEq

/-- Serialized mesh entry (glTFMesh). -/
structure glTFMesh where
  primitives : List glTFMeshPrimitives
  deriving DecidableEq

/-- Serialized base color texture reference inside a material. -/
structure glTFTextureRef where
  index : ℕ
  deriving DecidableEq

/-- Serialized pbrMetallicRoughness block: the source spreads the
collaborator's block and then replaces baseColorTexture with an index. -/
structure glTFPbr where
  metallicFactor : Option ℚ := none
  roughnessFactor : Option ℚ := none
  baseColorTexture : Option glTFTextureRef := none
  deriving DecidableEq

/-- Serialized material entry (glTFMaterial): fields set only when they
deviate from defaults. -/
structure glTFMaterial where
  name : Option String := none
  alphaMode : Option AlphaMode := none
  alphaCutoff : Option ℚ := none
  doubleSided : Bool := false
  pbrMetallicRoughness : Option glTFPbr := none
  deriving DecidableEq

/-- Serialized texture entry. -/
structure glTFTexture where
  sampler : ℕ
  source : ℕ
  deriving DecidableEq

/-- Serialized sampler entry: the object literal in addSampler has exactly
wrapS and wrapT. -/
structure glTFSampler where
  wrapS : WrappingMode
  wrapT : WrappingMode
  deriving DecidableEq

/-- Serialized image entry: `extras` holds the original handle for duplicate
detection and is never serialized; uri / bufferView / mimeType are set
depending on the image kind and output mode. -/
structure glTFImage where
  extras : ImageHandle
  uri : Option String := none
  bufferView : Option ℕ := none
  mimeType : Option String := none
  deriving DecidableEq

/-- Serialized accessor entry, as assembled by addAccessor. -/
structure glTFAccessor where
  bufferView : ℕ
  byteOffset : ℕ
  componentType : ComponentType
  count : ℕ
  type : DataType
  min : List ℚ
  max : List ℚ
  normalized : Bool := false
  deriving DecidableEq

/-- Modelled from the spec: one Buffer object (src/buffer.ts, absent from
src/).  Only what the claims observe is kept: whether the driver has called
finalize on it.  Byte content and view offsets are carried by the views. -/
structure BufferRec where
  finalized : Bool := false
  deriving DecidableEq

/-- Modelled from the spec: one dispatched asynchronous write
(BufferView.writeAsync in src/buffer.ts, absent from src/): a completion
token plus the id of the Buffer the write is destined for. -/
structure AsyncWrite where
  token : ℕ
  bufferId : ℕ
  deriving DecidableEq

/-- Converter options, per their use in gltf.ts. -/
structure Options where
  bufferOutputType : BufferOutputType
  imageOutputType : ImageOutputType
  deriving DecidableEq

/-- The `extras` scratch area of the document (gltf.extras in
src/gltftypes.ts), per its use in gltf.ts: options, the shared GLB chunk
buffer, the external-mode pending promise list (modelled as the indices of
the image entries each promise will patch), plus the modelled buffer store
and freshness counters for buffer-view indices and write tokens. -/
structure Extras where
  options : Options
  binChunkBuffer : Option ℕ := none
  buffers : List BufferRec := []
  asyncWrites : List AsyncWrite := []
  nextToken : ℕ := 0
  nextBufferViewIndex : ℕ := 0
  promises : List ℕ := []
  deriving DecidableEq

/-- The document under construction (glTF in src/gltftypes.ts).  Arrays are
created lazily by the source (`if (!gltf.xs) gltf.xs = []`), hence
`Option (List _)`. -/
structure glTF where
  scene : Option ℕ := none
  scenes : Option (List glTFScene) := none
  nodes : Option (List glTFNode) := none
  meshes : Option (List glTFMesh) := none
  materials : Option (List glTFMaterial) := none
  textures : Option (List glTFTexture) := none
  images : Option (List glTFImage) := none
  samplers : Option (List glTFSampler) := none
  accessors : Option (List glTFAccessor) := none
  extras : Extras
  deriving DecidableEq

/-- A fresh document for the given options, before addScenes runs. -/
def createEmptyGLTF (opts : Options) : glTF :=
  { extras := { options := opts } }

/-- Components per element of an accessor shape (VEC2=2, VEC3=3, VEC4=4). -/
def DataType.components : DataType → ℕ
  | .SCALAR => 1
  | .VEC2 => 2
  | .VEC3 => 3
  | .VEC4 => 4

/-- Bytes per component (4-byte floats, single unsigned bytes). -/
def ComponentType.byteSize : ComponentType → ℕ
  | .FLOAT => 4
  | .UNSIGNED_BYTE => 1

/-- Modelled from the spec: the record a closed accessor segment emits
(BufferAccessorInfo in src/buffer.ts, absent from src/): componentType,
shape, byteOffset, count, per-component min/max, normalized flag (§4.1). -/
structure BufferAccessorInfo where
  componentType : ComponentType
  type : DataType
  byteOffset : ℕ
  count : ℕ
  min : List ℚ
  max : List ℚ
  normalized : Bool := false
  deriving DecidableEq

/-- Modelled from the spec: a Typed Buffer Region (BufferView in
src/buffer.ts, absent from src/), §4.1: a growable component store typed by
component type and shape, with at most one in-progress accessor segment
(`currentStart` is the component count at which it began) and counters of
started/ended segments.  It is a local value in the packer; its document
index is assigned at creation. -/
structure BufferView where
  bufferId : ℕ
  index : ℕ
  componentType : ComponentType
  dataType : DataType
  data : List ℚ := []
  currentStart : Option ℕ := none
  started : ℕ := 0
  ended : ℕ := 0
  segmentNames : List String := []
  deriving DecidableEq

/-- Append one scalar component (§4.1 push). -/
def BufferView.push (bv : BufferView) (q : ℚ) : BufferView :=
  { bv with data := bv.data ++ [q] }

/-- Begin a new accessor segment at the current component count
(§4.1 startSegment). -/
def BufferView.startAccessor (bv : BufferView) (name : String) : BufferView :=
  { bv with
    currentStart := some bv.data.length
    started := bv.started + 1
    segmentNames := bv.segmentNames ++ [name] }

/-- Components of `l` at positions congruent to `k` modulo `stride`. -/
def nthComponents (stride k : ℕ) (l : List ℚ) : List ℚ :=
  l.enum.filterMap fun p => if p.1 % stride = k then some p.2 else none

/-- Minimum of a component list (0 for an empty segment). -/
def listMinD : List ℚ → ℚ
  | [] => 0
  | a :: t => t.foldl min a

/-- Maximum of a component list (0 for an empty segment). -/
def listMaxD : List ℚ → ℚ
  | [] => 0
  | a :: t => t.foldl max a

/-- Per-component minima of a segment (§4.1: bounds widen per
position-within-shape). -/
def componentMin (stride : ℕ) (l : List ℚ) : List ℚ :=
  (List.range stride).map fun k => listMinD (nthComponents stride k l)

/-- Per-component maxima of a segment. -/
def componentMax (stride : ℕ) (l : List ℚ) : List ℚ :=
  (List.range stride).map fun k => listMaxD (nthComponents stride k l)

/-- Modelled from the spec: close the in-progress segment and emit its
accessor record (§4.1 endSegment).  Ending with no open segment is a
defect of the caller and is surfaced as an error. -/
def BufferView.endAccessor (bv : BufferView) :
    Except String (BufferView × BufferAccessorInfo) :=
  match bv.currentStart with
  | none => .error "endAccessor without startAccessor"
  | some st =>
    let seg := bv.data.drop st
    let stride := bv.dataType.components
    .ok ({ bv with currentStart := none, ended := bv.ended + 1 },
      { componentType := bv.componentType, type := bv.dataType,
        byteOffset := st * bv.componentType.byteSize,
        count := seg.length / stride,
        min := componentMin stride seg, max := componentMax stride seg })

/-- Update index `i` of a list in place, identity when out of range. -/
def listUpdate {α : Type} (l : List α) (i : ℕ) (f : α → α) : List α :=
  match l.get? i with
  | some a => l.set i (f a)
  | none => l

/-- addBuffer (gltf.ts): allocate a new Buffer owned by the document. -/
def addBuffer (g : glTF) : glTF × ℕ :=
  let idx := g.extras.buffers.length
  ({ g with extras := { g.extras with buffers := g.extras.buffers ++ [{}] } }, idx)

/-- Modelled from the spec: Buffer.addBufferView (src/buffer.ts, absent from
src/): create a view on buffer `bufId`; its document bufferView index is
reserved synchronously at creation (§4.1). -/
def addBufferView (g : glTF) (bufId : ℕ) (ct : ComponentType) (dt : DataType) :
    glTF × BufferView :=
  let idx := g.extras.nextBufferViewIndex
  ({ g with extras := { g.extras with nextBufferViewIndex := idx + 1 } },
   { bufferId := bufId, index := idx, componentType := ct, dataType := dt })

/-- Modelled from the spec: BufferView.writeAsync (src/buffer.ts, absent
from src/) as used at gltf.ts:371: dispatch an asynchronous write of the
encoded image bytes into the view; the view finalizes itself when the write
resolves.  The model records a fresh completion token destined for the
view's owning buffer. -/
def writeAsyncImage (g : glTF) (bv : BufferView) : glTF :=
  let t := g.extras.nextToken
  { g with extras := { g.extras with
      nextToken := t + 1,
      asyncWrites := g.extras.asyncWrites ++ [{ token := t, bufferId := bv.bufferId }] } }

/-- Mark buffer `b` as having had finalize called on it by the driver. -/
def finalizeBuffer (g : glTF) (b : ℕ) : glTF :=
  { g with extras := { g.extras with
      buffers := listUpdate g.extras.buffers b (fun r => { r with finalized := true }) } }

/-- addAccessor (gltf.ts): append a document accessor entry assembled from a
closed segment's info and return its index. -/
def addAccessor (g : glTF) (bufferViewIndex : ℕ) (accessorInfo : BufferAccessorInfo) :
    glTF × ℕ :=
  let accessors := g.accessors.getD []
  let addedIndex := accessors.length
  let accessor : glTFAccessor :=
    { bufferView := bufferViewIndex, byteOffset := accessorInfo.byteOffset,
      componentType := accessorInfo.componentType, count := accessorInfo.count,
      type := accessorInfo.type, min := accessorInfo.min, max := accessorInfo.max,
      normalized := accessorInfo.normalized }
  ({ g with accessors := some (accessors ++ [accessor]) }, addedIndex)

/-- Index of the first element satisfying `p` (the linear dedup scans of
addSampler and addImage). -/
def findIdxP {α : Type} (p : α → Bool) : List α → Option ℕ
  | [] => none
  | a :: l => if p a then some 0 else (findIdxP p l).map (· + 1)

/-- objectsEqual (gltf.ts): JSON.stringify equality; for the fixed-shape
two-field sampler records built by addSampler this coincides with
structural equality. -/
def objectsEqual (obj1 obj2 : glTFSampler) : Bool :=
  decide (obj1 = obj2)

/-- The sampler record addSampler builds from a texture: exactly wrapS and
wrapT (gltf.ts:399-402). -/
def samplerOf (texture : Texture) : glTFSampler :=
  { wrapS := texture.wrapS, wrapT := texture.wrapT }

/-- addSampler (gltf.ts): scan for a structurally equal sampler, returning
the first match, otherwise append. -/
def addSampler (g : glTF) (texture : Texture) : glTF × ℕ :=
  let samplers := g.samplers.getD []
  let gltfSampler := samplerOf texture
  match findIdxP (fun s => objectsEqual gltfSampler s) samplers with
  | some i => ({ g with samplers := some samplers }, i)
  | none => ({ g with samplers := some (samplers ++ [gltfSampler]) }, samplers.length)

/-- Modelled from the spec: imageToDataURI (src/imageutils.ts collaborator,
absent from src/): synchronous conversion of a raw image to a data URI.  A
deterministic stand-in; no claim depends on the string produced. -/
def imageToDataURI (image : ImageHandle) : String :=
  "data:image/png;base64," ++ toString image.id

/-- The dedup scan body of addImage (gltf.ts:352-359): entry `i` matches if
the handle is identical to the entry's extras, or the argument is a
pass-through image whose uri string equals the entry's uri. -/
def matchesImage (image : ImageHandle) (e : glTFImage) : Bool :=
  decide (e.extras = image) ||
    (match image.uri with
     | some u => decide (e.uri = some u)
     | none => false)

/-- addImage (gltf.ts): dedup by handle identity or uri; on a miss append a
new entry, dispatching the encoding per the active image output mode. -/
def addImage (g : glTF) (image : ImageHandle) : glTF × ℕ :=
  let images := g.images.getD []
  let g := { g with images := some images }
  match findIdxP (matchesImage image) images with
  | some i => (g, i)
  | none =>
    match image.uri with
    | some u =>
        let gltfImage : glTFImage := { extras := image, uri := some u }
        ({ g with images := some (images ++ [gltfImage]) }, images.length)
    | none =>
      match g.extras.options.imageOutputType with
      | .GLB =>
          let (g, bufferView) :=
            addBufferView g (g.extras.binChunkBuffer.getD 0) .UNSIGNED_BYTE .SCALAR
          let g := writeAsyncImage g bufferView
          let gltfImage : glTFImage :=
            { extras := image, bufferView := some bufferView.index,
              mimeType := some "image/png" }
          ({ g with images := some (images ++ [gltfImage]) }, images.length)
      | .DataURI =>
          let gltfImage : glTFImage := { extras := image, uri := some (imageToDataURI image) }
          ({ g with images := some (images ++ [gltfImage]) }, images.length)
      | .External =>
          let addedIndex := images.length
          let g := { g with extras :=
            { g.extras with promises := g.extras.promises ++ [addedIndex] } }
          let gltfImage : glTFImage := { extras := image }
          ({ g with images := some (images ++ [gltfImage]) }, addedIndex)

/-- addTexture (gltf.ts): register sampler and image, then append the
texture entry. -/
def addTexture (g : glTF) (texture : Texture) : glTF × ℕ :=
  let g := { g with textures := some (g.textures.getD []) }
  let (g, samplerIndex) := addSampler g texture
  let (g, sourceIndex) := addImage g texture.image
  let gltfTexture : glTFTexture := { sampler := samplerIndex, source := sourceIndex }
  let addedIndex := (g.textures.getD []).length
  ({ g with textures := some ((g.textures.getD []) ++ [gltfTexture]) }, addedIndex)

/-- addMaterial (gltf.ts): always appends; default-valued fields are left
absent; a base color texture is registered recursively. -/
def addMaterial (g : glTF) (material : Material) : glTF × ℕ :=
  let g := { g with materials := some (g.materials.getD []) }
  let gltfMaterial : glTFMaterial := { name := material.name }
  let gltfMaterial :=
    if material.alphaMode ≠ AlphaMode.OPAQUE then
      { gltfMaterial with alphaMode := some material.alphaMode }
    else gltfMaterial
  let gltfMaterial :=
    if material.alphaCutoff ≠ (1 / 2 : ℚ) then
      { gltfMaterial with alphaCutoff := some material.alphaCutoff }
    else gltfMaterial
  let gltfMaterial :=
    if material.doubleSided then { gltfMaterial with doubleSided := true }
    else gltfMaterial
  match material.pbrMetallicRoughness with
  | none =>
      let addedIndex := (g.materials.getD []).length
      ({ g with materials := some ((g.materials.getD []) ++ [gltfMaterial]) }, addedIndex)
  | some pbr =>
      let basePbr : glTFPbr :=
        { metallicFactor := pbr.metallicFactor, roughnessFactor := pbr.roughnessFactor }
      match pbr.baseColorTexture with
      | none =>
          let gltfMaterial := { gltfMaterial with pbrMetallicRoughness := some basePbr }
          let addedIndex := (g.materials.getD []).length
          ({ g with materials := some ((g.materials.getD []) ++ [gltfMaterial]) }, addedIndex)
      | some t =>
          let (g, textureIndex) := addTexture g t
          let pbrOut : glTFPbr := { basePbr with baseColorTexture := some ⟨textureIndex⟩ }
          let gltfMaterial := { gltfMaterial with pbrMetallicRoughness := some pbrOut }
          let addedIndex := (g.materials.getD []).length
          ({ g with materials := some ((g.materials.getD []) ++ [gltfMaterial]) }, addedIndex)

/-- addMaterials (gltf.ts): register each material of the mesh-local list in
order, collecting the assigned document-global indices. -/
def addMaterials (g : glTF) (materials : List Material) : glTF × List ℕ :=
  match materials with
  | [] => (g, [])
  | m :: rest =>
      let (g, i) := addMaterial g m
      let (g, is) := addMaterials g rest
      (g, i :: is)

/-- Truncation of a rational toward zero, the integer conversion JS performs
inside `x | 0`. -/
def ratTrunc (q : ℚ) : ℤ :=
  if 0 ≤ q then ⌊q⌋ else -⌊-q⌋

/-- The ToInt32 wrap applied by JS bitwise operations. -/
def toInt32 (n : ℤ) : ℤ :=
  ((n + 2 ^ 31) % 2 ^ 32) - 2 ^ 31

/-- JS `x | 0` on a finite number modelled as a rational: truncate toward
zero, then wrap to a signed 32-bit value. -/
def jsOrZero (q : ℚ) : ℤ :=
  toInt32 (ratTrunc q)

/-- addColorToBufferView (gltf.ts:254-264): push r, g, b quantized by
`(c * 255) | 0`; push the quantized alpha when the color has an `a` field,
0xFF otherwise. -/
def addColorToBufferView (bufferView : BufferView) (color : Color) : BufferView :=
  match color with
  | .rgb r g b =>
      let bv := bufferView.push ((jsOrZero (r * 255) : ℤ) : ℚ)
      let bv := bv.push ((jsOrZero (g * 255) : ℤ) : ℚ)
      let bv := bv.push ((jsOrZero (b * 255) : ℤ) : ℚ)
      bv.push 255
  | .rgba r g b a =>
      let bv := bufferView.push ((jsOrZero (r * 255) : ℤ) : ℚ)
      let bv := bv.push ((jsOrZero (g * 255) : ℤ) : ℚ)
      let bv := bv.push ((jsOrZero (b * 255) : ℤ) : ℚ)
      bv.push ((jsOrZero (a * 255) : ℤ) : ℚ)

/-- The in-progress state of addMesh's face loop: the document, the local
position/normal/uv buffer views, the lazily allocated color view, the
previous face's material index, and the primitives emitted so far. -/
structure MeshFold where
  g : glTF
  vb : BufferView
  nb : BufferView
  uvb : BufferView
  colorb : Option BufferView
  lastMaterialIndex : Option ℤ
  prims : List glTFMeshPrimitives
  deriving DecidableEq

/-- _completeMeshPrimitive (gltf.ts:127-153): end the open
POSITION/NORMAL/TEXCOORD_0 segments, register their accessors, and build
the primitive; when the run had a material (index ≥ 0) record it on the
primitive and, if that material is vertex-colored, also close and register
the COLOR_0 segment.  The non-null assertion on the color view and the
mesh-local material lookup become errors when they would crash in JS. -/
def completeMeshPrimitive (mesh : Mesh) (st : MeshFold) (materialIndex : ℤ) :
    Except String (MeshFold × glTFMeshPrimitives) := do
  let (vb, vInfo) ← st.vb.endAccessor
  let (nb, nInfo) ← st.nb.endAccessor
  let (uvb, uvInfo) ← st.uvb.endAccessor
  let (g, pi) := addAccessor st.g vb.index vInfo
  let (g, ni) := addAccessor g nb.index nInfo
  let (g, ti) := addAccessor g uvb.index uvInfo
  let primitive : glTFMeshPrimitives :=
    { attributes := { POSITION := pi, NORMAL := ni, TEXCOORD_0 := ti }, mode := mesh.mode }
  if 0 ≤ materialIndex then
    let primitive := { primitive with material := some materialIndex }
    match mesh.material.get? materialIndex.toNat with
    | none => .error "undefined material"
    | some material =>
      if material.vertexColorMode ≠ VertexColorMode.NoColors then
        match st.colorb with
        | none => .error "color buffer view missing"
        | some cb => do
          let (cb, cInfo) ← cb.endAccessor
          let (g, ci) := addAccessor g cb.index cInfo
          .ok ({ st with g := g, vb := vb, nb := nb, uvb := uvb, colorb := some cb },
               { primitive with attributes := { primitive.attributes with COLOR_0 := some ci } })
      else
        .ok ({ st with g := g, vb := vb, nb := nb, uvb := uvb }, primitive)
  else
    .ok ({ st with g := g, vb := vb, nb := nb, uvb := uvb }, primitive)

/-- The segment-opening half of the material-change block
(gltf.ts:169-177): start fresh POSITION/NORMAL/TEXCOORD_0 segments, lazily
allocating (via _ensureColorBufferView) and starting the COLOR_0 segment
when the new material is vertex-colored, and record the new material index
as the last seen one. -/
def startRunSegments (mbId : ℕ) (st : MeshFold) (f : Face)
    (currentMaterial : Option Material) : MeshFold :=
  let vb := st.vb.startAccessor "POSITION"
  let nb := st.nb.startAccessor "NORMAL"
  let uvb := st.uvb.startAccessor "TEXCOORD_0"
  match currentMaterial with
  | some cm =>
      if cm.vertexColorMode ≠ VertexColorMode.NoColors then
        let (g, cb) :=
          match st.colorb with
          | some cb => (st.g, cb)
          | none => addBufferView st.g mbId .UNSIGNED_BYTE .VEC4
        let cb := cb.startAccessor "COLOR_0"
        ⟨g, vb, nb, uvb, some cb, some f.materialIndex, st.prims⟩
      else
        ⟨st.g, vb, nb, uvb, st.colorb, some f.materialIndex, st.prims⟩
  | none => ⟨st.g, vb, nb, uvb, st.colorb, some f.materialIndex, st.prims⟩

/-- The material-change block of the face loop (gltf.ts:162-178): complete
the previous primitive when one is open, then open the new run's accessor
segments. -/
def openRun (mesh : Mesh) (mbId : ℕ) (st : MeshFold) (f : Face)
    (currentMaterial : Option Material) : Except String MeshFold := do
  let st ←
    match st.lastMaterialIndex with
    | some li => do
        let (st, primitive) ← completeMeshPrimitive mesh st li
        pure { st with prims := st.prims ++ [primitive] }
    | none => pure st
  pure (startRunSegments mbId st f currentMaterial)

/-- The per-face position/normal/uv pushes (gltf.ts:180-214), in vertex
order v1, v2, v3. -/
def pushFaceGeometry (st : MeshFold) (f : Face) : MeshFold :=
  let vb := st.vb.push f.v1.x |>.push f.v1.y |>.push f.v1.z
    |>.push f.v2.x |>.push f.v2.y |>.push f.v2.z
    |>.push f.v3.x |>.push f.v3.y |>.push f.v3.z
  let nb := st.nb.push f.v1.normalX |>.push f.v1.normalY |>.push f.v1.normalZ
    |>.push f.v2.normalX |>.push f.v2.normalY |>.push f.v2.normalZ
    |>.push f.v3.normalX |>.push f.v3.normalY |>.push f.v3.normalZ
  let uvb := st.uvb.push f.v1.u |>.push f.v1.v
    |>.push f.v2.u |>.push f.v2.v
    |>.push f.v3.u |>.push f.v3.v
  { st with vb := vb, nb := nb, uvb := uvb }

/-- The per-face color pushes (gltf.ts:216-234): face color duplicated three
times in FaceColors mode, each vertex's own color in VertexColors mode,
missing colors defaulting to black. -/
def pushFaceColors (st : MeshFold) (f : Face) (currentMaterial : Option Material) :
    Except String MeshFold :=
  match currentMaterial with
  | none => .ok st
  | some cm =>
    match cm.vertexColorMode with
    | .NoColors => .ok st
    | .FaceColors =>
        match st.colorb with
        | none => .error "color buffer view missing"
        | some cb =>
            let c := f.color.getD RGBColorDefault
            let cb := addColorToBufferView (addColorToBufferView (addColorToBufferView cb c) c) c
            .ok { st with colorb := some cb }
    | .VertexColors =>
        match st.colorb with
        | none => .error "color buffer view missing"
        | some cb =>
            let cb := addColorToBufferView cb (f.v1.color.getD RGBColorDefault)
            let cb := addColorToBufferView cb (f.v2.color.getD RGBColorDefault)
            let cb := addColorToBufferView cb (f.v3.color.getD RGBColorDefault)
            .ok { st with colorb := some cb }

/-- One iteration of the forEachFace callback (gltf.ts:156-235). -/
def meshFaceStep (mesh : Mesh) (mbId : ℕ) (st : MeshFold) (f : Face) :
    Except String MeshFold := do
  let currentMaterial : Option Material ←
    if 0 ≤ f.materialIndex then
      match mesh.material.get? f.materialIndex.toNat with
      | some m => pure (some m)
      | none => Except.error "undefined material"
    else pure none
  let st ←
    if st.lastMaterialIndex ≠ some f.materialIndex then
      openRun mesh mbId st f currentMaterial
    else pure st
  let st := pushFaceGeometry st f
  pushFaceColors st f currentMaterial

/-- The face loop.  On an error the state before the failing face is
returned together with the message (the JS exception would propagate). -/
def foldFaces (mesh : Mesh) (mbId : ℕ) (st : MeshFold) :
    List Face → MeshFold × Option String
  | [] => (st, none)
  | f :: rest =>
    match meshFaceStep mesh mbId st f with
    | .ok st' => foldFaces mesh mbId st' rest
    | .error e => (st, some e)

/-- The face loop followed by the final completion of the last open
primitive (gltf.ts:155-240). -/
def packFaces (mesh : Mesh) (mbId : ℕ) (st : MeshFold) (faces : List Face) :
    MeshFold × Option String :=
  match foldFaces mesh mbId st faces with
  | (st, some e) => (st, some e)
  | (st, none) =>
    match st.lastMaterialIndex with
    | none => (st, none)
    | some li =>
      match completeMeshPrimitive mesh st li with
      | .ok (st, primitive) => ({ st with prims := st.prims ++ [primitive] }, none)
      | .error e => (st, some e)

/-- Store the collected primitives on the mesh entry pushed at `i` (the
source pushes them one by one onto the already-inserted glTFMesh). -/
def setMeshPrimitives (g : glTF) (i : ℕ) (ps : List glTFMeshPrimitives) : glTF :=
  { g with meshes := some (listUpdate (g.meshes.getD []) i (fun _ => ⟨ps⟩)) }

/-- addMesh (gltf.ts:90-252).  The trailing view finalizations
(gltf.ts:242-246) act on the local views, which are discarded here, so they
have no observable effect in the model; the per-mesh buffer finalize
(gltf.ts:248-249) is recorded. -/
def addMesh (g : glTF) (mesh : Mesh) : glTF × Except String ℕ :=
  let g := { g with meshes := some (g.meshes.getD []) }
  if mesh.mode ≠ MeshMode.TRIANGLES then
    (g, .error "MeshMode other than TRIANGLES not currently supported")
  else
    let (g, _materialIndices) := addMaterials g mesh.material
    let addedIndex := (g.meshes.getD []).length
    let g := { g with meshes := some ((g.meshes.getD []) ++ [⟨[]⟩]) }
    let singleGLBBuffer := g.extras.options.bufferOutputType = BufferOutputType.GLB
    let (g, meshBufferId) :=
      if singleGLBBuffer then (g, g.extras.binChunkBuffer.getD 0) else addBuffer g
    let (g, vb) := addBufferView g meshBufferId .FLOAT .VEC3
    let (g, nb) := addBufferView g meshBufferId .FLOAT .VEC3
    let (g, uvb) := addBufferView g meshBufferId .FLOAT .VEC2
    match packFaces mesh meshBufferId ⟨g, vb, nb, uvb, none, none, []⟩ mesh.faces with
    | (st, some e) => (setMeshPrimitives st.g addedIndex st.prims, .error e)
    | (st, none) =>
      let g := setMeshPrimitives st.g addedIndex st.prims
      let g := if ¬ singleGLBBuffer then finalizeBuffer g meshBufferId else g
      (g, .ok addedIndex)

/-- Append a node entry. -/
def pushNode (g : glTF) (n : glTFNode) : glTF :=
  { g with nodes := some ((g.nodes.getD []) ++ [n]) }

/-- Mutate the node entry at index `i` (the source mutates the pushed
glTFNode object after insertion). -/
def updNode (g : glTF) (i : ℕ) (f : glTFNode → glTFNode) : glTF :=
  { g with nodes := some (listUpdate (g.nodes.getD []) i f) }

/-- The transform serialization of addNode (gltf.ts:55-69): each of
translation/rotation/scale is emitted, in full, exactly when some component
deviates from its identity value. -/
def serializeNodeTransforms (node : Node) : glTFNode :=
  let gltfNode : glTFNode := { name := node.name }
  let t := node.getTranslation
  let gltfNode :=
    if t.x ≠ 0 ∨ t.y ≠ 0 ∨ t.z ≠ 0 then
      { gltfNode with translation := some [t.x, t.y, t.z] }
    else gltfNode
  let r := node.getRotationQuaternion
  let gltfNode :=
    if r.x ≠ 0 ∨ r.y ≠ 0 ∨ r.z ≠ 0 ∨ r.w ≠ 1 then
      { gltfNode with rotation := some [r.x, r.y, r.z, r.w] }
    else gltfNode
  let s := node.getScale
  if s.x ≠ 1 ∨ s.y ≠ 1 ∨ s.z ≠ 1 then
    { gltfNode with scale := some [s.x, s.y, s.z] }
  else gltfNode

/-- Attach the mesh index produced by addMesh to the already-pushed node
entry (gltf.ts:74-76); an addMesh exception propagates. -/
def attachMesh (addedIndex : ℕ) (res : glTF × Except String ℕ) :
    glTF × Except String ℕ :=
  match res with
  | (g, .ok mi) => (updNode g addedIndex (fun e => { e with mesh := some mi }), .ok addedIndex)
  | (g, .error e) => (g, .error e)

/-- Return the node's own index once its children were walked
(gltf.ts:77-87); an exception from the child loop propagates. -/
def attachChildren (addedIndex : ℕ) (res : glTF × Except String Unit) :
    glTF × Except String ℕ :=
  match res with
  | (g, .ok ()) => (g, .ok addedIndex)
  | (g, .error e) => (g, .error e)

mutual
/-- addNode (gltf.ts:51-88): serialize the transform fields, push the entry,
then either attach a mesh index or recurse into the children, wiring child
indices onto the already-pushed entry. -/
def addNode (g : glTF) : Node → glTF × Except String ℕ
  | .mk nm t r s meshOpt children =>
    let g := { g with nodes := some (g.nodes.getD []) }
    let gltfNode := serializeNodeTransforms (.mk nm t r s meshOpt children)
    let addedIndex := (g.nodes.getD []).length
    let g := pushNode g gltfNode
    match meshOpt with
    | some mesh => attachMesh addedIndex (addMesh g mesh)
    | none => attachChildren addedIndex (addChildren g addedIndex children)

/-- The child loop of addNode (gltf.ts:78-84): each child is added and its
index appended to the parent entry's lazily created children array. -/
def addChildren (g : glTF) (parentIndex : ℕ) : NodeList → glTF × Except String Unit
  | .nil => (g, .ok ())
  | .cons n rest =>
    match addNode g n with
    | (g, .ok childIndex) =>
      let g := updNode g parentIndex
        (fun e => { e with children := some ((e.children.getD []) ++ [childIndex]) })
      addChildren g parentIndex rest
    | (g, .error e) => (g, .error e)
end

/-- The node loop of addScene (gltf.ts:40-46), collecting assigned indices. -/
def addSceneNodes (g : glTF) : NodeList → glTF × Except String (List ℕ)
  | .nil => (g, .ok [])
  | .cons n rest =>
    match addNode g n with
    | (g, .ok i) =>
      match addSceneNodes g rest with
      | (g, .ok is) => (g, .ok (i :: is))
      | (g, .error e) => (g, .error e)
    | (g, .error e) => (g, .error e)

/-- addScene (gltf.ts:32-49): the scene entry is pushed after its nodes were
added; its nodes field is created lazily (absent when the scene is empty). -/
def addScene (g : glTF) (scene : Scene) : glTF × Except String Unit :=
  let g := { g with scenes := some (g.scenes.getD []) }
  match addSceneNodes g scene.nodes with
  | (g, .ok idxs) =>
    let gltfScene : glTFScene :=
      { name := scene.name, nodes := if idxs.isEmpty then none else some idxs }
    ({ g with scenes := some ((g.scenes.getD []) ++ [gltfScene]) }, .ok ())
  | (g, .error e) => (g, .error e)

/-- The forEachScene loop of addScenes. -/
def foldScenes (g : glTF) : List Scene → glTF × Except String Unit
  | [] => (g, .ok ())
  | s :: rest =>
    match addScene g s with
    | (g, .ok ()) => foldScenes g rest
    | (g, .error e) => (g, .error e)

/-- The GLB setup of addScenes (gltf.ts:19-21): allocate the shared binary
chunk buffer. -/
def setupBinChunk (g : glTF) : glTF :=
  let (g, b) := addBuffer g
  { g with extras := { g.extras with binChunkBuffer := some b } }

/-- addScenes (gltf.ts:13-30): set the default scene, allocate the shared
GLB chunk buffer when either output mode is GLB, walk the scenes, and
finally call finalize on the chunk buffer. -/
def addScenes (g : glTF) (asset : GLTFAsset) : glTF × Except String Unit :=
  let g := { g with scene := some asset.defaultScene }
  let doingGLB := g.extras.options.bufferOutputType = BufferOutputType.GLB ∨
    g.extras.options.imageOutputType = ImageOutputType.GLB
  let g := if doingGLB then setupBinChunk g else g
  match foldScenes g asset.scenes with
  | (g, .ok ()) =>
    (if doingGLB then finalizeBuffer g (g.extras.binChunkBuffer.getD 0) else g, .ok ())
  | (g, .error e) => (g, .error e)

/-! Frame lemmas: which parts of the document each operation can touch.
`ExtendsWrites` captures that an operation never reassigns the bin chunk
buffer reference and only appends asynchronous writes, each destined for
the buffer currently referenced as the bin chunk. -/

/-- Write-state framing of a document operation. -/
def ExtendsWrites (g g' : glTF) : Prop :=
  g'.extras.binChunkBuffer = g.extras.binChunkBuffer ∧
  ∃ tail, g'.extras.asyncWrites = g.extras.asyncWrites ++ tail ∧
    ∀ w ∈ tail, w.bufferId = g.extras.binChunkBuffer.getD 0

theorem extendsWrites_refl (g : glTF) : ExtendsWrites g g :=
  ⟨rfl, [], by simp, by simp⟩

theorem extendsWrites_trans {g1 g2 g3 : glTF}
    (h12 : ExtendsWrites g1 g2) (h23 : ExtendsWrites g2 g3) : ExtendsWrites g1 g3 := by
  obtain ⟨hb12, t12, ha12, hw12⟩ := h12
  obtain ⟨hb23, t23, ha23, hw23⟩ := h23
  refine ⟨hb23.trans hb12, t12 ++ t23, by rw [ha23, ha12, List.append_assoc], ?_⟩
  intro w hw
  rcases List.mem_append.mp hw with h | h
  · exact hw12 w h
  · rw [hb12] at hw23
    exact hw23 w h

theorem frame_addSampler (g : glTF) (t : Texture) :
    (addSampler g t).1.nodes = g.nodes ∧ (addSampler g t).1.meshes = g.meshes ∧
    (addSampler g t).1.accessors = g.accessors ∧ (addSampler g t).1.extras = g.extras := by
  unfold addSampler
  cases h : findIdxP (fun s => objectsEqual (samplerOf t) s) (g.samplers.getD []) <;>
    simp [h]

theorem frame_addImage (g : glTF) (img : ImageHandle) :
    (addImage g img).1.nodes = g.nodes ∧ (addImage g img).1.meshes = g.meshes ∧
    (addImage g img).1.accessors = g.accessors ∧ ExtendsWrites g (addImage g img).1 := by
  unfold addImage
  cases h1 : findIdxP (matchesImage img) (g.images.getD [])
  case some i =>
    simp only [h1]
    exact ⟨by trivial, by trivial, by trivial, by trivial, [], by simp, by simp⟩
  case none =>
    cases h2 : img.uri
    case some u =>
      simp only [h1, h2]
      exact ⟨by trivial, by trivial, by trivial, by trivial, [], by simp, by simp⟩
    case none =>
      cases h3 : g.extras.options.imageOutputType
      case GLB =>
        simp only [h1, h2, h3, addBufferView, writeAsyncImage]
        exact ⟨by trivial, by trivial, by trivial, by trivial,
          [⟨g.extras.nextToken, g.extras.binChunkBuffer.getD 0⟩], by simp, by simp⟩
      case DataURI =>
        simp only [h1, h2, h3]
        exact ⟨by trivial, by trivial, by trivial, by trivial, [], by simp, by simp⟩
      case External =>
        simp only [h1, h2, h3]
        exact ⟨by trivial, by trivial, by trivial, by trivial, [], by simp, by simp⟩

theorem frame_addTexture (g : glTF) (t : Texture) :
    (addTexture g t).1.nodes = g.nodes ∧ (addTexture g t).1.meshes = g.meshes ∧
    (addTexture g t).1.accessors = g.accessors ∧ ExtendsWrites g (addTexture g t).1 := by
  unfold addTexture
  obtain ⟨n1, m1, a1, e1⟩ := frame_addSampler { g with textures := some (g.textures.getD []) } t
  obtain ⟨n2, m2, a2, e2⟩ :=
    frame_addImage (addSampler { g with textures := some (g.textures.getD []) } t).1 t.image
  refine ⟨by simp [n2, n1], by simp [m2, m1], by simp [a2, a1], ?_⟩
  have base : ExtendsWrites g { g with textures := some (g.textures.getD []) } :=
    ⟨rfl, [], by simp, by simp⟩
  have e1w : ExtendsWrites { g with textures := some (g.textures.getD []) }
      (addSampler { g with textures := some (g.textures.getD []) } t).1 :=
    ⟨by rw [e1], [], by rw [e1]; simp, by simp⟩
  exact extendsWrites_trans (extendsWrites_trans base e1w) e2

theorem frame_addMaterial (g : glTF) (m : Material) :
    (addMaterial g m).1.nodes = g.nodes ∧ (addMaterial g m).1.meshes = g.meshes ∧
    (addMaterial g m).1.accessors = g.accessors ∧ ExtendsWrites g (addMaterial g m).1 := by
  unfold addMaterial
  cases h1 : m.pbrMetallicRoughness
  case none =>
    simp only [h1]
    exact ⟨by trivial, by trivial, by trivial, by trivial, [], by simp, by simp⟩
  case some pbr =>
    cases h2 : pbr.baseColorTexture
    case none =>
      simp only [h1, h2]
      exact ⟨by trivial, by trivial, by trivial, by trivial, [], by simp, by simp⟩
    case some t =>
      simp only [h1, h2]
      obtain ⟨n1, m1, a1, e1⟩ :=
        frame_addTexture { g with materials := some (g.materials.getD []) } t
      refine ⟨by simp [n1], by simp [m1], by simp [a1], ?_⟩
      have base : ExtendsWrites g { g with materials := some (g.materials.getD []) } :=
        ⟨rfl, [], by simp, by simp⟩
      have step := extendsWrites_trans base e1
      obtain ⟨hb, tail, ha, hw⟩ := step
      exact ⟨hb, tail, ha, hw⟩

theorem frame_addMaterials (g : glTF) (ms : List Material) :
    (addMaterials g ms).1.nodes = g.nodes ∧ (addMaterials g ms).1.meshes = g.meshes ∧
    (addMaterials g ms).1.accessors = g.accessors ∧ ExtendsWrites g (addMaterials g ms).1 := by
  induction ms generalizing g
  case nil => exact ⟨rfl, rfl, rfl, extendsWrites_refl g⟩
  case cons m rest ih =>
    unfold addMaterials
    obtain ⟨n1, m1, a1, e1⟩ := frame_addMaterial g m
    obtain ⟨n2, m2, a2, e2⟩ := ih (addMaterial g m).1
    exact ⟨by simp [n2, n1], by simp [m2, m1], by simp [a2, a1],
      extendsWrites_trans e1 e2⟩

/-- Setting a list element at the position just past an existing prefix. -/
theorem listUpdate_append_singleton {α : Type} (l : List α) (x : α) (f : α → α) :
    listUpdate (l ++ [x]) l.length f = l ++ [f x] := by
  unfold listUpdate
  rw [List.get?_eq_getElem?]
  rw [List.getElem?_append_right (Nat.le_refl _)]
  simp [List.set_append_right]

/-- C9: a mesh whose topology mode is not TRIANGLES makes addMesh raise the
fatal error, and no mesh, material or accessor entry (and hence no
primitive) is appended by the call. -/
theorem c9_non_triangle_mode_fatal (g : glTF) (mesh : Mesh)
    (h : mesh.mode ≠ MeshMode.TRIANGLES) :
    (addMesh g mesh).2 = .error "MeshMode other than TRIANGLES not currently supported" ∧
    (addMesh g mesh).1.meshes.getD [] = g.meshes.getD [] ∧
    (addMesh g mesh).1.materials = g.materials ∧
    (addMesh g mesh).1.accessors = g.accessors := by
  unfold addMesh
  simp [h]

/-- C9 witness: a POINTS mesh on a fresh document. -/
theorem c9_witness :
    (Mesh.mk .POINTS [] []).mode ≠ MeshMode.TRIANGLES ∧
    ((addMesh (createEmptyGLTF ⟨.External, .DataURI⟩) (Mesh.mk .POINTS [] [])).2 =
        .error "MeshMode other than TRIANGLES not currently supported" ∧
      (addMesh (createEmptyGLTF ⟨.External, .DataURI⟩) (Mesh.mk .POINTS [] [])).1.meshes.getD []
        = (createEmptyGLTF ⟨.External, .DataURI⟩).meshes.getD [] ∧
      (addMesh (createEmptyGLTF ⟨.External, .DataURI⟩) (Mesh.mk .POINTS [] [])).1.materials
        = (createEmptyGLTF ⟨.External, .DataURI⟩).materials ∧
      (addMesh (createEmptyGLTF ⟨.External, .DataURI⟩) (Mesh.mk .POINTS [] [])).1.accessors
        = (createEmptyGLTF ⟨.External, .DataURI⟩).accessors) :=
  ⟨by decide, c9_non_triangle_mode_fatal _ _ (by decide)⟩

/-- C10: a TRIANGLES mesh with an empty face stream serializes to exactly
one appended mesh entry with an empty primitives array, appends no accessor
entries (no accessor segment is ever started, so none is registered), and
raises no error. -/
theorem c10_empty_mesh (g : glTF) (mesh : Mesh)
    (hmode : mesh.mode = MeshMode.TRIANGLES) (hfaces : mesh.faces = []) :
    (addMesh g mesh).2 = .ok ((g.meshes.getD []).length) ∧
    (addMesh g mesh).1.meshes.getD [] = g.meshes.getD [] ++ [⟨[]⟩] ∧
    (addMesh g mesh).1.accessors = g.accessors := by
  unfold addMesh
  rcases hpair : addMaterials { g with meshes := some (g.meshes.getD []) } mesh.material
    with ⟨g2, idxs⟩
  have hfr := frame_addMaterials { g with meshes := some (g.meshes.getD []) } mesh.material
  rw [hpair] at hfr
  obtain ⟨hn, hm, ha, he⟩ := hfr
  simp only [hm, ha] at *
  simp only [hmode, hfaces, hpair]
  by_cases hglb : g2.extras.options.bufferOutputType = BufferOutputType.GLB
  · simp [hglb, hm, ha, addBufferView, packFaces, foldFaces, setMeshPrimitives,
      listUpdate_append_singleton]
  · simp [hglb, hm, ha, addBuffer, addBufferView, packFaces, foldFaces, setMeshPrimitives,
      finalizeBuffer, listUpdate_append_singleton]

/-- C10 witness: an empty TRIANGLES mesh on a fresh document. -/
theorem c10_witness :
    (Mesh.mk .TRIANGLES [] []).mode = MeshMode.TRIANGLES ∧
    ((addMesh (createEmptyGLTF ⟨.External, .DataURI⟩) (Mesh.mk .TRIANGLES [] [])).2 = .ok 0 ∧
      (addMesh (createEmptyGLTF ⟨.External, .DataURI⟩)
          (Mesh.mk .TRIANGLES [] [])).1.meshes.getD [] = [⟨[]⟩] ∧
      (addMesh (createEmptyGLTF ⟨.External, .DataURI⟩)
          (Mesh.mk .TRIANGLES [] [])).1.accessors = none) :=
  ⟨by decide, c10_empty_mesh (createEmptyGLTF ⟨.External, .DataURI⟩)
    (Mesh.mk .TRIANGLES [] []) (by decide) (by decide)⟩

/-! Run-splitting machinery: addMesh emits one primitive per maximal
contiguous run of equal material indices in the face stream.  `newRuns`
computes the run heads of a face-material stream relative to the previous
face's material; `allRuns` additionally counts the still-open run, which
the final completion closes. -/

/-- Whether the run with material index `i` carries vertex-color data: the
index is a real material whose vertexColorMode is not NoColors. -/
def runNeedsColor (mats : List Material) (i : ℤ) : Bool :=
  if 0 ≤ i then
    match mats.get? i.toNat with
    | some m => decide (m.vertexColorMode ≠ VertexColorMode.NoColors)
    | none => false
  else false

/-- The observable shape of an emitted primitive: its material field and
whether its attribute map has a COLOR_0 entry. -/
def primView (p : glTFMeshPrimitives) : Option ℤ × Bool :=
  (p.material, p.attributes.COLOR_0.isSome)

/-- The primitive shape a completed run with material index `i` produces. -/
def runView (mats : List Material) (i : ℤ) : Option ℤ × Bool :=
  (if 0 ≤ i then some i else none, runNeedsColor mats i)

/-- Run heads of a material-index stream, relative to the previous face's
material index. -/
def newRuns (prev : Option ℤ) : List ℤ → List ℤ
  | [] => []
  | a :: l => if prev = some a then newRuns prev l else a :: newRuns (some a) l

/-- All runs the packer will complete when folding the stream from a state
whose open run (if any) has material `prev`: the open run plus the fresh
run heads. -/
def allRuns (prev : Option ℤ) (l : List ℤ) : List ℤ :=
  (match prev with
   | none => []
   | some p => [p]) ++ newRuns prev l

/-- The primitives `openRun` emits: the previous run, when one was open. -/
def emittedOpen (mats : List Material) (prev : Option ℤ) : List (Option ℤ × Bool) :=
  match prev with
  | none => []
  | some li => [runView mats li]

/-- The invariant of the face loop: whenever a run is open, its material
index is in range (when non-negative), the three geometry views have open
segments, and the color view exists with an open segment whenever the run's
material is vertex-colored. -/
def StInv (mats : List Material) (st : MeshFold) : Prop :=
  ∀ li, st.lastMaterialIndex = some li →
    (0 ≤ li → li.toNat < mats.length) ∧
    st.vb.currentStart.isSome = true ∧
    st.nb.currentStart.isSome = true ∧
    st.uvb.currentStart.isSome = true ∧
    (runNeedsColor mats li = true →
      ∃ cb, st.colorb = some cb ∧ cb.currentStart.isSome = true)

theorem push_currentStart (bv : BufferView) (q : ℚ) :
    (bv.push q).currentStart = bv.currentStart := rfl

theorem addColorToBufferView_currentStart (bv : BufferView) (c : Color) :
    (addColorToBufferView bv c).currentStart = bv.currentStart := by
  cases c <;> rfl

theorem pushFaceGeometry_proj (st : MeshFold) (f : Face) :
    (pushFaceGeometry st f).g = st.g ∧ (pushFaceGeometry st f).colorb = st.colorb ∧
    (pushFaceGeometry st f).lastMaterialIndex = st.lastMaterialIndex ∧
    (pushFaceGeometry st f).prims = st.prims ∧
    (pushFaceGeometry st f).vb.currentStart = st.vb.currentStart ∧
    (pushFaceGeometry st f).nb.currentStart = st.nb.currentStart ∧
    (pushFaceGeometry st f).uvb.currentStart = st.uvb.currentStart := by
  unfold pushFaceGeometry
  simp [BufferView.push]

theorem pushFaceColors_spec (st : MeshFold) (f : Face) (cm : Option Material)
    (hok : ∀ m, cm = some m → m.vertexColorMode ≠ VertexColorMode.NoColors →
      st.colorb.isSome = true) :
    ∃ st', pushFaceColors st f cm = .ok st' ∧
      st'.g = st.g ∧ st'.vb = st.vb ∧ st'.nb = st.nb ∧ st'.uvb = st.uvb ∧
      st'.lastMaterialIndex = st.lastMaterialIndex ∧ st'.prims = st.prims ∧
      st'.colorb.isSome = st.colorb.isSome ∧
      (∀ cb, st.colorb = some cb → ∃ cb', st'.colorb = some cb' ∧
        cb'.currentStart = cb.currentStart) := by
  cases cm
  case none =>
    exact ⟨st, by simp [pushFaceColors], rfl, rfl, rfl, rfl, rfl, rfl, rfl,
      fun cb h => ⟨cb, h, rfl⟩⟩
  case some m =>
    cases hvc : m.vertexColorMode
    case NoColors =>
      exact ⟨st, by simp [pushFaceColors, hvc], rfl, rfl, rfl, rfl, rfl, rfl, rfl,
        fun cb h => ⟨cb, h, rfl⟩⟩
    case FaceColors =>
      have hcb : st.colorb.isSome = true := hok m rfl (by rw [hvc]; decide)
      obtain ⟨cb, hcbeq⟩ := Option.isSome_iff_exists.mp hcb
      refine ⟨{ st with colorb := some (addColorToBufferView (addColorToBufferView
          (addColorToBufferView cb (f.color.getD RGBColorDefault))
          (f.color.getD RGBColorDefault)) (f.color.getD RGBColorDefault)) },
        by simp [pushFaceColors, hvc, hcbeq], rfl, rfl, rfl, rfl, rfl, rfl,
        by simp [hcbeq], ?_⟩
      intro cb0 h0
      rw [hcbeq] at h0
      injection h0 with h0
      subst h0
      exact ⟨_, rfl, by simp [addColorToBufferView_currentStart]⟩
    case VertexColors =>
      have hcb : st.colorb.isSome = true := hok m rfl (by rw [hvc]; decide)
      obtain ⟨cb, hcbeq⟩ := Option.isSome_iff_exists.mp hcb
      refine ⟨{ st with colorb := some (addColorToBufferView (addColorToBufferView
          (addColorToBufferView cb (f.v1.color.getD RGBColorDefault))
          (f.v2.color.getD RGBColorDefault)) (f.v3.color.getD RGBColorDefault)) },
        by simp [pushFaceColors, hvc, hcbeq], rfl, rfl, rfl, rfl, rfl, rfl,
        by simp [hcbeq], ?_⟩
      intro cb0 h0
      rw [hcbeq] at h0
      injection h0 with h0
      subst h0
      exact ⟨_, rfl, by simp [addColorToBufferView_currentStart]⟩

theorem completeMeshPrimitive_spec (mesh : Mesh) (st : MeshFold) (mi : ℤ)
    (hvb : st.vb.currentStart.isSome = true)
    (hnb : st.nb.currentStart.isSome = true)
    (huvb : st.uvb.currentStart.isSome = true)
    (hval : 0 ≤ mi → mi.toNat < mesh.material.length)
    (hcol : runNeedsColor mesh.material mi = true →
      ∃ cb, st.colorb = some cb ∧ cb.currentStart.isSome = true) :
    ∃ st' p, completeMeshPrimitive mesh st mi = .ok (st', p) ∧
      primView p = runView mesh.material mi ∧
      p.mode = mesh.mode ∧
      st'.lastMaterialIndex = st.lastMaterialIndex ∧
      st'.prims = st.prims ∧
      st'.colorb.isSome = st.colorb.isSome ∧
      st'.g.nodes = st.g.nodes ∧ st'.g.meshes = st.g.meshes ∧
      st'.g.extras = st.g.extras := by
  obtain ⟨s1, hs1⟩ := Option.isSome_iff_exists.mp hvb
  obtain ⟨s2, hs2⟩ := Option.isSome_iff_exists.mp hnb
  obtain ⟨s3, hs3⟩ := Option.isSome_iff_exists.mp huvb
  by_cases hmi : (0 : ℤ) ≤ mi
  · obtain ⟨m, hm⟩ : ∃ m, mesh.material.get? mi.toNat = some m :=
      ⟨_, List.get?_eq_get (hval hmi)⟩
    have hm2 : mesh.material[mi.toNat]? = some m := by
      rw [← List.get?_eq_getElem?]
      exact hm
    by_cases hvc : m.vertexColorMode = VertexColorMode.NoColors
    · unfold completeMeshPrimitive
      simp [BufferView.endAccessor, hs1, hs2, hs3, hm, hm2, hmi, hvc, Bind.bind, Except.bind,
        addAccessor, primView, runView, runNeedsColor]
      exact ⟨_, _, ⟨rfl, rfl⟩, by simp⟩
    · have hneeds : runNeedsColor mesh.material mi = true := by
        simp [runNeedsColor, hmi, hm2, hvc]
      obtain ⟨cb, hcb, hcbs⟩ := hcol hneeds
      obtain ⟨s4, hs4⟩ := Option.isSome_iff_exists.mp hcbs
      unfold completeMeshPrimitive
      simp [BufferView.endAccessor, hs1, hs2, hs3, hs4, hm, hm2, hmi, hvc, hcb,
        Bind.bind, Except.bind, addAccessor, primView, runView, runNeedsColor]
      exact ⟨_, _, ⟨rfl, rfl⟩, by simp⟩
  · unfold completeMeshPrimitive
    simp [BufferView.endAccessor, hs1, hs2, hs3, hmi, Bind.bind, Except.bind, addAccessor,
      primView, runView, runNeedsColor]
    exact ⟨_, _, ⟨rfl, rfl⟩, by simp⟩

theorem startRunSegments_spec (mbId : ℕ) (st : MeshFold) (f : Face) (cm : Option Material) :
    (startRunSegments mbId st f cm).lastMaterialIndex = some f.materialIndex ∧
    (startRunSegments mbId st f cm).prims = st.prims ∧
    (startRunSegments mbId st f cm).vb.currentStart.isSome = true ∧
    (startRunSegments mbId st f cm).nb.currentStart.isSome = true ∧
    (startRunSegments mbId st f cm).uvb.currentStart.isSome = true ∧
    (startRunSegments mbId st f cm).g.nodes = st.g.nodes ∧
    (startRunSegments mbId st f cm).g.meshes = st.g.meshes ∧
    ExtendsWrites st.g (startRunSegments mbId st f cm).g ∧
    (∀ m, cm = some m → m.vertexColorMode ≠ VertexColorMode.NoColors →
      ∃ cb, (startRunSegments mbId st f cm).colorb = some cb ∧
        cb.currentStart.isSome = true) := by
  cases hcm : cm
  case none =>
    refine ⟨rfl, rfl, ?_, ?_, ?_, rfl, rfl, extendsWrites_refl _, ?_⟩ <;>
      simp [startRunSegments, BufferView.startAccessor]
  case some m =>
    by_cases hvc : m.vertexColorMode = VertexColorMode.NoColors
    · refine ⟨?_, ?_, ?_, ?_, ?_, ?_, ?_, ?_, ?_⟩ <;>
        simp [startRunSegments, BufferView.startAccessor, hvc, extendsWrites_refl]
    · cases hcb : st.colorb with
      | some cb =>
        refine ⟨?_, ?_, ?_, ?_, ?_, ?_, ?_, ?_, ?_⟩ <;>
          simp [startRunSegments, BufferView.startAccessor, hvc, hcb, extendsWrites_refl]
      | none =>
        refine ⟨?_, ?_, ?_, ?_, ?_, ?_, ?_, ?_, ?_⟩ <;>
          simp [startRunSegments, BufferView.startAccessor, hvc, hcb, addBufferView]
        exact ⟨rfl, [], by simp, by simp⟩

theorem runNeedsColor_iff (mats : List Material) (i : ℤ) :
    runNeedsColor mats i = true ↔
      ∃ m, 0 ≤ i ∧ mats.get? i.toNat = some m ∧
        m.vertexColorMode ≠ VertexColorMode.NoColors := by
  unfold runNeedsColor
  by_cases h : (0 : ℤ) ≤ i
  · cases hm : mats[i.toNat]? with
    | none => simp [h, List.get?_eq_getElem?, hm]
    | some m => simp [h, List.get?_eq_getElem?, hm]
  · simp [h]

theorem openRun_spec (mesh : Mesh) (mbId : ℕ) (st : MeshFold) (f : Face)
    (cm : Option Material)
    (hinv : StInv mesh.material st)
    (hcm : cm = if 0 ≤ f.materialIndex then mesh.material.get? f.materialIndex.toNat else none)
    (hf : 0 ≤ f.materialIndex → f.materialIndex.toNat < mesh.material.length) :
    ∃ st', openRun mesh mbId st f cm = .ok st' ∧
      StInv mesh.material st' ∧
      st'.lastMaterialIndex = some f.materialIndex ∧
      st'.prims.map primView =
        st.prims.map primView ++ emittedOpen mesh.material st.lastMaterialIndex ∧
      st'.g.nodes = st.g.nodes ∧ st'.g.meshes = st.g.meshes ∧
      ExtendsWrites st.g st'.g := by
  cases hlast : st.lastMaterialIndex with
  | none =>
    obtain ⟨l1, p1, v1, n1, u1, gn1, gm1, ew1, col1⟩ := startRunSegments_spec mbId st f cm
    refine ⟨startRunSegments mbId st f cm, ?_, ?_, l1, ?_, gn1, gm1, ew1⟩
    · unfold openRun
      simp [hlast, Bind.bind, Except.bind, Pure.pure, Except.pure]
    · intro li hli
      rw [l1] at hli
      injection hli with hli
      subst hli
      refine ⟨hf, v1, n1, u1, ?_⟩
      intro hneeds
      obtain ⟨m, h0, hm, hvc⟩ := (runNeedsColor_iff mesh.material f.materialIndex).mp hneeds
      have hcm2 : cm = some m := by rw [hcm, if_pos h0, hm]
      exact col1 m hcm2 hvc
    · rw [p1]
      simp [emittedOpen, hlast]
  | some li =>
    obtain ⟨hvalli, hvbo, hnbo, huvbo, hcolo⟩ := hinv li hlast
    obtain ⟨st1, p, heq, hpv, hpmode, hlast1, hprims1, hcolor1, hnodes1, hmeshes1, hextras1⟩ :=
      completeMeshPrimitive_spec mesh st li hvbo hnbo huvbo hvalli hcolo
    obtain ⟨l1, p1, v1, n1, u1, gn1, gm1, ew1, col1⟩ :=
      startRunSegments_spec mbId { st1 with prims := st1.prims ++ [p] } f cm
    refine ⟨_, ?_, ?_, l1, ?_, ?_, ?_, ?_⟩
    · unfold openRun
      simp [hlast, heq, Bind.bind, Except.bind, Pure.pure, Except.pure]
    · intro li2 hli2
      rw [l1] at hli2
      injection hli2 with hli2
      subst hli2
      refine ⟨hf, v1, n1, u1, ?_⟩
      intro hneeds
      obtain ⟨m, h0, hm, hvc⟩ := (runNeedsColor_iff mesh.material f.materialIndex).mp hneeds
      have hcm2 : cm = some m := by rw [hcm, if_pos h0, hm]
      exact col1 m hcm2 hvc
    · rw [p1]
      simp [List.map_append, hprims1, hpv, emittedOpen, hlast]
    · rw [gn1]
      exact hnodes1
    · rw [gm1]
      exact hmeshes1
    · have e01 : ExtendsWrites st.g st1.g :=
        ⟨by rw [hextras1], [], by rw [hextras1]; simp, by simp⟩
      exact extendsWrites_trans e01 ew1

theorem pushPhase_spec (mesh : Mesh) (st : MeshFold) (f : Face) (cm : Option Material)
    (hinv : StInv mesh.material st)
    (hlast : st.lastMaterialIndex = some f.materialIndex)
    (hcmc : ∀ m, cm = some m → m.vertexColorMode ≠ VertexColorMode.NoColors →
      runNeedsColor mesh.material f.materialIndex = true) :
    ∃ st', pushFaceColors (pushFaceGeometry st f) f cm = .ok st' ∧
      StInv mesh.material st' ∧
      st'.lastMaterialIndex = some f.materialIndex ∧
      st'.prims.map primView = st.prims.map primView ∧
      st'.g = st.g := by
  obtain ⟨pg, pc, pl, pp, pv, pn, pu⟩ := pushFaceGeometry_proj st f
  have hok : ∀ m, cm = some m → m.vertexColorMode ≠ VertexColorMode.NoColors →
      (pushFaceGeometry st f).colorb.isSome = true := by
    intro m hm hvc
    obtain ⟨_, _, _, _, hcolor⟩ := hinv f.materialIndex hlast
    obtain ⟨cb, hcb, _⟩ := hcolor (hcmc m hm hvc)
    rw [pc, hcb]
    rfl
  obtain ⟨st', heq, hg, hvb, hnb, huvb, hl, hpr, hcs, hcolpres⟩ :=
    pushFaceColors_spec (pushFaceGeometry st f) f cm hok
  refine ⟨st', heq, ?_, ?_, ?_, ?_⟩
  · intro li hli
    rw [hl, pl, hlast] at hli
    injection hli with hli
    subst hli
    obtain ⟨hval0, hv0, hn0, hu0, hc0⟩ := hinv f.materialIndex hlast
    refine ⟨hval0, ?_, ?_, ?_, ?_⟩
    · rw [hvb, pv]
      exact hv0
    · rw [hnb, pn]
      exact hn0
    · rw [huvb, pu]
      exact hu0
    · intro hneeds
      obtain ⟨cb, hcb, hcbs⟩ := hc0 hneeds
      have hcb2 : (pushFaceGeometry st f).colorb = some cb := by
        rw [pc]
        exact hcb
      obtain ⟨cb2, hcb2eq, hcs2⟩ := hcolpres cb hcb2
      exact ⟨cb2, hcb2eq, by rw [hcs2]; exact hcbs⟩
  · rw [hl, pl, hlast]
  · rw [hpr, pp]
  · rw [hg, pg]

theorem meshFaceStep_spec (mesh : Mesh) (mbId : ℕ) (st : MeshFold) (f : Face)
    (hinv : StInv mesh.material st)
    (hf : 0 ≤ f.materialIndex → f.materialIndex.toNat < mesh.material.length) :
    ∃ st', meshFaceStep mesh mbId st f = .ok st' ∧
      StInv mesh.material st' ∧
      st'.lastMaterialIndex = some f.materialIndex ∧
      st'.prims.map primView = st.prims.map primView ++
        (if st.lastMaterialIndex = some f.materialIndex then []
         else emittedOpen mesh.material st.lastMaterialIndex) ∧
      st'.g.nodes = st.g.nodes ∧ st'.g.meshes = st.g.meshes ∧
      ExtendsWrites st.g st'.g := by
  by_cases h0 : (0 : ℤ) ≤ f.materialIndex
  · obtain ⟨m, hm⟩ : ∃ m, mesh.material.get? f.materialIndex.toNat = some m :=
      ⟨_, List.get?_eq_get (hf h0)⟩
    have hm2 : mesh.material[f.materialIndex.toNat]? = some m := by
      rw [← List.get?_eq_getElem?]
      exact hm
    have hcmc : ∀ m0, (some m : Option Material) = some m0 →
        m0.vertexColorMode ≠ VertexColorMode.NoColors →
        runNeedsColor mesh.material f.materialIndex = true := by
      intro m0 hm0 hvc0
      injection hm0 with hm0
      subst hm0
      exact (runNeedsColor_iff _ _).mpr ⟨m, h0, hm, hvc0⟩
    by_cases hch : st.lastMaterialIndex = some f.materialIndex
    · obtain ⟨st2, ht, hinv2, hl2, hpr2, hg2⟩ :=
        pushPhase_spec mesh st f (some m) hinv hch hcmc
      refine ⟨st2, ?_, hinv2, hl2, ?_, ?_, ?_, ?_⟩
      · unfold meshFaceStep
        simp [h0, hm, hm2, hch, ht, Bind.bind, Except.bind, Pure.pure, Except.pure]
      · rw [hpr2]
        simp [hch]
      · rw [hg2]
      · rw [hg2]
      · rw [hg2]
        exact extendsWrites_refl _
    · obtain ⟨st1, ho, hinv1, hl1, hpv1, hn1, hmm1, hew1⟩ :=
        openRun_spec mesh mbId st f (some m) hinv (by rw [if_pos h0, hm]) hf
      obtain ⟨st2, ht, hinv2, hl2, hpr2, hg2⟩ :=
        pushPhase_spec mesh st1 f (some m) hinv1 hl1 hcmc
      refine ⟨st2, ?_, hinv2, hl2, ?_, ?_, ?_, ?_⟩
      · unfold meshFaceStep
        simp [h0, hm, hm2, hch, ho, ht, Bind.bind, Except.bind, Pure.pure, Except.pure]
      · rw [hpr2, hpv1]
        simp [hch]
      · rw [hg2]
        exact hn1
      · rw [hg2]
        exact hmm1
      · rw [hg2]
        exact hew1
  · have hcmc : ∀ m0, (none : Option Material) = some m0 →
        m0.vertexColorMode ≠ VertexColorMode.NoColors →
        runNeedsColor mesh.material f.materialIndex = true := by
      intro m0 hm0
      cases hm0
    by_cases hch : st.lastMaterialIndex = some f.materialIndex
    · obtain ⟨st2, ht, hinv2, hl2, hpr2, hg2⟩ :=
        pushPhase_spec mesh st f none hinv hch hcmc
      refine ⟨st2, ?_, hinv2, hl2, ?_, ?_, ?_, ?_⟩
      · unfold meshFaceStep
        simp [h0, hch, ht, Bind.bind, Except.bind, Pure.pure, Except.pure]
      · rw [hpr2]
        simp [hch]
      · rw [hg2]
      · rw [hg2]
      · rw [hg2]
        exact extendsWrites_refl _
    · obtain ⟨st1, ho, hinv1, hl1, hpv1, hn1, hmm1, hew1⟩ :=
        openRun_spec mesh mbId st f none hinv (by rw [if_neg h0]) hf
      obtain ⟨st2, ht, hinv2, hl2, hpr2, hg2⟩ :=
        pushPhase_spec mesh st1 f none hinv1 hl1 hcmc
      refine ⟨st2, ?_, hinv2, hl2, ?_, ?_, ?_, ?_⟩
      · unfold meshFaceStep
        simp [h0, hch, ho, ht, Bind.bind, Except.bind, Pure.pure, Except.pure]
      · rw [hpr2, hpv1]
        simp [hch]
      · rw [hg2]
        exact hn1
      · rw [hg2]
        exact hmm1
      · rw [hg2]
        exact hew1

theorem allRuns_cons (mats : List Material) (prev : Option ℤ) (a : ℤ) (l : List ℤ) :
    (if prev = some a then ([] : List (Option ℤ × Bool)) else emittedOpen mats prev) ++
      (allRuns (some a) l).map (runView mats) =
    (allRuns prev (a :: l)).map (runView mats) := by
  cases prev with
  | none => simp [allRuns, newRuns, emittedOpen]
  | some p =>
    by_cases hp : p = a
    · subst hp
      simp [allRuns, newRuns, emittedOpen]
    · simp [allRuns, newRuns, emittedOpen, hp]

theorem packFaces_spec (mesh : Mesh) (mbId : ℕ) (faces : List Face) (st : MeshFold)
    (hinv : StInv mesh.material st)
    (hval : ∀ f ∈ faces, 0 ≤ f.materialIndex → f.materialIndex.toNat < mesh.material.length) :
    (packFaces mesh mbId st faces).2 = none ∧
    (packFaces mesh mbId st faces).1.prims.map primView =
      st.prims.map primView ++
        (allRuns st.lastMaterialIndex (faces.map (·.materialIndex))).map
          (runView mesh.material) ∧
    (packFaces mesh mbId st faces).1.g.nodes = st.g.nodes ∧
    (packFaces mesh mbId st faces).1.g.meshes = st.g.meshes ∧
    ExtendsWrites st.g (packFaces mesh mbId st faces).1.g := by
  induction faces generalizing st
  case nil =>
    cases hlast : st.lastMaterialIndex with
    | none =>
      refine ⟨?_, ?_, ?_, ?_, ?_⟩ <;>
        simp [packFaces, foldFaces, hlast, allRuns, newRuns, extendsWrites_refl]
    | some li =>
      obtain ⟨hvalli, hvbo, hnbo, huvbo, hcolo⟩ := hinv li hlast
      obtain ⟨st1, p, heq, hpv, hpmode, hlast1, hprims1, hcolor1, hnodes1, hmeshes1, hextras1⟩ :=
        completeMeshPrimitive_spec mesh st li hvbo hnbo huvbo hvalli hcolo
      refine ⟨?_, ?_, ?_, ?_, ?_⟩ <;>
        simp [packFaces, foldFaces, hlast, heq, allRuns, newRuns, hprims1, hpv,
          hnodes1, hmeshes1]
      exact ⟨by rw [hextras1], [], by rw [hextras1]; simp, by simp⟩
  case cons f rest ih =>
    obtain ⟨st1, hstep, hinv1, hl1, hpr1, hn1, hm1, hew1⟩ :=
      meshFaceStep_spec mesh mbId st f hinv (hval f (List.mem_cons_self f rest))
    obtain ⟨e2, pr2, n2, m2, ew2⟩ :=
      ih st1 hinv1 (fun f2 hf2 => hval f2 (List.mem_cons_of_mem f hf2))
    have hfold : foldFaces mesh mbId st (f :: rest) = foldFaces mesh mbId st1 rest := by
      simp only [foldFaces, hstep]
    have hpack : packFaces mesh mbId st (f :: rest) = packFaces mesh mbId st1 rest := by
      unfold packFaces
      rw [hfold]
    rw [hpack]
    refine ⟨e2, ?_, by rw [n2, hn1], by rw [m2, hm1], extendsWrites_trans hew1 ew2⟩
    rw [pr2, hpr1, hl1, List.append_assoc]
    simp only [List.map_cons]
    rw [allRuns_cons]

theorem extendsWrites_of_eq {g g' : glTF}
    (hb : g'.extras.binChunkBuffer = g.extras.binChunkBuffer)
    (ha : g'.extras.asyncWrites = g.extras.asyncWrites) : ExtendsWrites g g' :=
  ⟨hb, [], by rw [ha, List.append_nil], by simp⟩

theorem stInv_init (mats : List Material) (g : glTF) (vb nb uvb : BufferView)
    (cb : Option BufferView) (prims : List glTFMeshPrimitives) :
    StInv mats ⟨g, vb, nb, uvb, cb, none, prims⟩ := by
  intro li h
  simp at h

theorem packFaces_out (mesh : Mesh) (mbId : ℕ) (faces : List Face) (st stF : MeshFold)
    (err : Option String)
    (hinv : StInv mesh.material st)
    (hval : ∀ f ∈ faces, 0 ≤ f.materialIndex → f.materialIndex.toNat < mesh.material.length)
    (heq : packFaces mesh mbId st faces = (stF, err)) :
    err = none ∧
    stF.prims.map primView =
      st.prims.map primView ++
        (allRuns st.lastMaterialIndex (faces.map (·.materialIndex))).map
          (runView mesh.material) ∧
    stF.g.nodes = st.g.nodes ∧ stF.g.meshes = st.g.meshes ∧
    ExtendsWrites st.g stF.g := by
  have h := packFaces_spec mesh mbId faces st hinv hval
  rw [heq] at h
  exact h

/-- The observable outcome of addMesh on a TRIANGLES mesh with in-range
material indices: it succeeds, appends exactly one mesh entry whose
primitives are the material runs of the face stream (one primitive per
maximal run of equal material index, in face order), does not touch nodes,
and only extends the asynchronous write state. -/
theorem addMesh_spec (g : glTF) (mesh : Mesh)
    (hmode : mesh.mode = MeshMode.TRIANGLES)
    (hval : ∀ f ∈ mesh.faces, 0 ≤ f.materialIndex →
      f.materialIndex.toNat < mesh.material.length) :
    ∃ gf prims,
      addMesh g mesh = (gf, .ok ((g.meshes.getD []).length)) ∧
      gf.meshes.getD [] = g.meshes.getD [] ++ [⟨prims⟩] ∧
      prims.map primView =
        (allRuns none (mesh.faces.map (·.materialIndex))).map (runView mesh.material) ∧
      gf.nodes = g.nodes ∧
      ExtendsWrites g gf := by
  unfold addMesh
  rcases hpair : addMaterials { g with meshes := some (g.meshes.getD []) } mesh.material
    with ⟨g2, idxs⟩
  have hfr := frame_addMaterials { g with meshes := some (g.meshes.getD []) } mesh.material
  rw [hpair] at hfr
  obtain ⟨hn, hm, ha, he⟩ := hfr
  have hm' : g2.meshes = some (g.meshes.getD []) := hm
  have hn' : g2.nodes = g.nodes := hn
  simp only [hmode, hpair, ne_eq, eq_self_iff_true, not_true, ite_false, if_false]
  by_cases hglb : g2.extras.options.bufferOutputType = BufferOutputType.GLB
  · simp only [hglb, if_true, if_false, ite_true, ite_false, not_true, addBufferView]
    split
    next stF e heq =>
      obtain ⟨habs, _⟩ := packFaces_out mesh _ mesh.faces _ _ _
        (stInv_init mesh.material _ _ _ _ _ _) hval heq
      cases habs
    next stF heq =>
      obtain ⟨_, pr2, n2, m2, ew2⟩ := packFaces_out mesh _ mesh.faces _ _ _
        (stInv_init mesh.material _ _ _ _ _ _) hval heq
      have m2' : stF.g.meshes = some (g.meshes.getD [] ++ [⟨[]⟩]) := by
        rw [m2]
        simp [hm']
      rw [hm']
      simp only [Option.getD_some]
      refine ⟨_, stF.prims, rfl, ?_, ?_, ?_, ?_⟩
      · simp [setMeshPrimitives, m2', listUpdate_append_singleton]
      · simpa using pr2
      · simp only [setMeshPrimitives]
        rw [n2]
        exact hn'
      · refine extendsWrites_trans (extendsWrites_trans ?_ ew2) (extendsWrites_of_eq rfl rfl)
        obtain ⟨hb, tail, haw, hwb⟩ := he
        exact ⟨hb, tail, haw, hwb⟩
  · simp only [hglb, ite_false, ite_true, not_false_iff, if_true, if_false, addBuffer,
      addBufferView, eq_self_iff_true]
    split
    next stF e heq =>
      obtain ⟨habs, _⟩ := packFaces_out mesh _ mesh.faces _ _ _
        (stInv_init mesh.material _ _ _ _ _ _) hval heq
      cases habs
    next stF heq =>
      obtain ⟨_, pr2, n2, m2, ew2⟩ := packFaces_out mesh _ mesh.faces _ _ _
        (stInv_init mesh.material _ _ _ _ _ _) hval heq
      have m2' : stF.g.meshes = some (g.meshes.getD [] ++ [⟨[]⟩]) := by
        rw [m2]
        simp [hm']
      rw [hm']
      simp only [Option.getD_some]
      refine ⟨_, stF.prims, rfl, ?_, ?_, ?_, ?_⟩
      · simp [setMeshPrimitives, finalizeBuffer, listUpdate, m2', listUpdate_append_singleton]
      · simpa using pr2
      · simp only [setMeshPrimitives, finalizeBuffer]
        rw [n2]
        exact hn'
      · refine extendsWrites_trans (extendsWrites_trans ?_ ew2) (extendsWrites_of_eq rfl rfl)
        obtain ⟨hb, tail, haw, hwb⟩ := he
        exact ⟨hb, tail, haw, hwb⟩

theorem newRuns_const (c : ℤ) (l : List ℤ) (h : ∀ x ∈ l, x = c) :
    newRuns (some c) l = [] := by
  induction l with
  | nil => rfl
  | cons a t ih =>
    have ha : a = c := h a (List.mem_cons_self a t)
    subst ha
    simp only [newRuns, if_pos rfl]
    exact ih (fun x hx => h x (List.mem_cons_of_mem a hx))

theorem allRuns_const (c : ℤ) (l : List ℤ) (hne : l ≠ []) (h : ∀ x ∈ l, x = c) :
    allRuns none l = [c] := by
  cases l with
  | nil => cases hne rfl
  | cons a t =>
    have ha : a = c := h a (List.mem_cons_self a t)
    subst ha
    simp [allRuns, newRuns, newRuns_const a t (fun x hx => h x (List.mem_cons_of_mem a hx))]

/-- C3: a triangle mesh whose face stream carries material indices A, B, A
with A ≠ B (both real material indices of the mesh) serializes to exactly
three primitives, in face order, carrying materials A, B, A: contiguous
runs are never merged across a material change and a new primitive is
opened exactly when a face's material index differs from the previous
face's. -/
theorem c3_material_runs_split_primitives (g : glTF) (mesh : Mesh) (A B : ℤ)
    (hmode : mesh.mode = MeshMode.TRIANGLES)
    (hAB : A ≠ B) (hA : 0 ≤ A) (hB : 0 ≤ B)
    (hAr : A.toNat < mesh.material.length) (hBr : B.toNat < mesh.material.length)
    (hfaces : mesh.faces.map (·.materialIndex) = [A, B, A]) :
    ∃ gf prims,
      addMesh g mesh = (gf, .ok ((g.meshes.getD []).length)) ∧
      gf.meshes.getD [] = g.meshes.getD [] ++ [⟨prims⟩] ∧
      prims.length = 3 ∧
      prims.map (fun p => p.material) = [some A, some B, some A] := by
  have hval : ∀ f ∈ mesh.faces, 0 ≤ f.materialIndex →
      f.materialIndex.toNat < mesh.material.length := by
    intro f hf _
    have hmem : f.materialIndex ∈ [A, B, A] := by
      rw [← hfaces]
      exact List.mem_map_of_mem _ hf
    have hmem2 : f.materialIndex = A ∨ f.materialIndex = B ∨ f.materialIndex = A := by
      simpa using hmem
    rcases hmem2 with h | h | h <;> rw [h] <;> assumption
  obtain ⟨gf, prims, heq, hmesh, hmap, _, _⟩ := addMesh_spec g mesh hmode hval
  have hruns : allRuns none (mesh.faces.map (·.materialIndex)) = [A, B, A] := by
    rw [hfaces]
    simp [allRuns, newRuns, hAB, Ne.symm hAB]
  refine ⟨gf, prims, heq, hmesh, ?_, ?_⟩
  · have hlen := congrArg List.length hmap
    rw [hruns] at hlen
    simpa using hlen
  · have h1 : (prims.map primView).map Prod.fst = prims.map (fun p => p.material) := by
      rw [List.map_map]
      rfl
    rw [← h1, hmap, hruns]
    simp [runView, hA, hB]

/-- C3 witness: two materials, faces with material indices 0, 1, 0. -/
theorem c3_witness :
    ∃ gf prims,
      addMesh (createEmptyGLTF ⟨.External, .DataURI⟩)
          (Mesh.mk .TRIANGLES
            [⟨none, .OPAQUE, 1/2, false, .NoColors, none⟩,
             ⟨none, .OPAQUE, 1/2, false, .NoColors, none⟩]
            [⟨⟨0,0,0,0,0,1,0,0,none⟩, ⟨0,0,0,0,0,1,0,0,none⟩, ⟨0,0,0,0,0,1,0,0,none⟩, none, 0⟩,
             ⟨⟨0,0,0,0,0,1,0,0,none⟩, ⟨0,0,0,0,0,1,0,0,none⟩, ⟨0,0,0,0,0,1,0,0,none⟩, none, 1⟩,
             ⟨⟨0,0,0,0,0,1,0,0,none⟩, ⟨0,0,0,0,0,1,0,0,none⟩, ⟨0,0,0,0,0,1,0,0,none⟩, none, 0⟩])
        = (gf, .ok (((createEmptyGLTF ⟨.External, .DataURI⟩).meshes.getD []).length)) ∧
      gf.meshes.getD [] = (createEmptyGLTF ⟨.External, .DataURI⟩).meshes.getD [] ++ [⟨prims⟩] ∧
      prims.length = 3 ∧
      prims.map (fun p => p.material) = [some 0, some 1, some 0] :=
  c3_material_runs_split_primitives (createEmptyGLTF ⟨.External, .DataURI⟩) _ 0 1
    (by decide) (by decide) (by decide) (by decide) (by decide) (by decide) (by decide)

/-- C5: a triangle mesh all of whose faces carry the sentinel material
index -1 serializes to exactly one primitive whose material field is
absent and whose attribute map has no COLOR_0 entry. -/
theorem c5_sentinel_material_single_primitive (g : glTF) (mesh : Mesh)
    (hmode : mesh.mode = MeshMode.TRIANGLES)
    (hne : mesh.faces ≠ [])
    (hsent : ∀ f ∈ mesh.faces, f.materialIndex = -1) :
    ∃ gf p,
      addMesh g mesh = (gf, .ok ((g.meshes.getD []).length)) ∧
      gf.meshes.getD [] = g.meshes.getD [] ++ [⟨[p]⟩] ∧
      p.material = none ∧ p.attributes.COLOR_0 = none := by
  have hval : ∀ f ∈ mesh.faces, 0 ≤ f.materialIndex →
      f.materialIndex.toNat < mesh.material.length := by
    intro f hf hpos
    rw [hsent f hf] at hpos
    exact absurd hpos (by decide)
  obtain ⟨gf, prims, heq, hmesh, hmap, _, _⟩ := addMesh_spec g mesh hmode hval
  have hruns : allRuns none (mesh.faces.map (·.materialIndex)) = [-1] := by
    refine allRuns_const (-1) _ ?_ ?_
    · intro hcon
      exact hne (List.map_eq_nil_iff.mp hcon)
    · intro x hx
      obtain ⟨f, hf, hfx⟩ := List.mem_map.mp hx
      rw [← hfx]
      exact hsent f hf
  rw [hruns] at hmap
  have hlen : prims.length = 1 := by
    have := congrArg List.length hmap
    simpa using this
  obtain ⟨p, hp⟩ := List.length_eq_one.mp hlen
  subst hp
  refine ⟨gf, p, heq, hmesh, ?_, ?_⟩
  · have := congrArg (fun l => l.headD (none, false)) hmap
    simp [primView, runView, runNeedsColor] at this
    exact this.1
  · have := congrArg (fun l => l.headD (none, false)) hmap
    simp [primView, runView, runNeedsColor] at this
    cases hc : p.attributes.COLOR_0 with
    | none => rfl
    | some c =>
      rw [hc] at this
      simp at this

/-- C5 witness: one face with the sentinel index on a material-less mesh. -/
theorem c5_witness :
    ∃ gf p,
      addMesh (createEmptyGLTF ⟨.External, .DataURI⟩)
          (Mesh.mk .TRIANGLES []
            [⟨⟨0,0,0,0,0,1,0,0,none⟩, ⟨0,0,0,0,0,1,0,0,none⟩, ⟨0,0,0,0,0,1,0,0,none⟩, none, -1⟩])
        = (gf, .ok (((createEmptyGLTF ⟨.External, .DataURI⟩).meshes.getD []).length)) ∧
      gf.meshes.getD [] = (createEmptyGLTF ⟨.External, .DataURI⟩).meshes.getD [] ++ [⟨[p]⟩] ∧
      p.material = none ∧ p.attributes.COLOR_0 = none :=
  c5_sentinel_material_single_primitive (createEmptyGLTF ⟨.External, .DataURI⟩) _
    (by decide) (by decide) (by decide)

/-! Unconditional framing: any run of the packer (also one that stops with
an error after the throw point) leaves the node array untouched, and a
successful step only extends the asynchronous write state. -/

theorem pushFaceColors_gframe (st : MeshFold) (f : Face) (cm : Option Material)
    (st' : MeshFold) (h : pushFaceColors st f cm = .ok st') :
    st'.g = st.g := by
  unfold pushFaceColors at h
  repeat' split at h
  all_goals (first
    | (injection h with h; subst h; rfl)
    | (exact absurd h (by simp)))

theorem completeMeshPrimitive_gframe (mesh : Mesh) (st : MeshFold) (mi : ℤ)
    (st' : MeshFold) (p : glTFMeshPrimitives)
    (h : completeMeshPrimitive mesh st mi = .ok (st', p)) :
    st'.g.nodes = st.g.nodes ∧ st'.g.meshes = st.g.meshes ∧
    st'.g.extras = st.g.extras := by
  unfold completeMeshPrimitive at h
  simp only [Bind.bind, Except.bind, addAccessor] at h
  repeat' split at h
  all_goals (first
    | (injection h with h; injection h with h1 h2; subst h1; subst h2;
       exact ⟨rfl, rfl, rfl⟩)
    | (exact absurd h (by simp)))

theorem startRunSegments_gframe (mbId : ℕ) (st : MeshFold) (f : Face)
    (cm : Option Material) :
    (startRunSegments mbId st f cm).g.nodes = st.g.nodes ∧
    (startRunSegments mbId st f cm).g.meshes = st.g.meshes ∧
    ExtendsWrites st.g (startRunSegments mbId st f cm).g := by
  obtain ⟨_, _, _, _, _, gn, gm, ew, _⟩ := startRunSegments_spec mbId st f cm
  exact ⟨gn, gm, ew⟩

theorem openRun_gframe (mesh : Mesh) (mbId : ℕ) (st : MeshFold) (f : Face)
    (cm : Option Material) (st' : MeshFold)
    (h : openRun mesh mbId st f cm = .ok st') :
    st'.g.nodes = st.g.nodes ∧ st'.g.meshes = st.g.meshes ∧
    ExtendsWrites st.g st'.g := by
  unfold openRun at h
  simp only [Bind.bind, Except.bind, Pure.pure, Except.pure] at h
  split at h
  next li hlast =>
    split at h
    next e heqc => cases h
    next pr heqc =>
      rcases pr with ⟨st1, p⟩
      injection h with h
      subst h
      obtain ⟨n1, m1, e1⟩ := completeMeshPrimitive_gframe mesh st li st1 p heqc
      obtain ⟨n2, m2, ew2⟩ :=
        startRunSegments_gframe mbId { st1 with prims := st1.prims ++ [p] } f cm
      refine ⟨by rw [n2]; exact n1, by rw [m2]; exact m1, ?_⟩
      exact extendsWrites_trans ⟨by rw [e1], [], by rw [e1]; simp, by simp⟩ ew2
  next hlast =>
    injection h with h
    subst h
    exact startRunSegments_gframe mbId st f cm

theorem meshFaceStep_gframe (mesh : Mesh) (mbId : ℕ) (st : MeshFold) (f : Face)
    (st' : MeshFold) (h : meshFaceStep mesh mbId st f = .ok st') :
    st'.g.nodes = st.g.nodes ∧ st'.g.meshes = st.g.meshes ∧
    ExtendsWrites st.g st'.g := by
  unfold meshFaceStep at h
  simp only [Bind.bind, Except.bind, Pure.pure, Except.pure] at h
  have tail : ∀ stm : MeshFold, ∀ cm : Option Material,
      pushFaceColors (pushFaceGeometry stm f) f cm = .ok st' →
      st'.g = stm.g := by
    intro stm cm hc
    have hg := pushFaceColors_gframe (pushFaceGeometry stm f) f cm st' hc
    obtain ⟨pg, _, _, _, _, _, _⟩ := pushFaceGeometry_proj stm f
    rw [hg, pg]
  split at h
  · split at h
    next m hm =>
      split at h
      · split at h
        next e heqo => cases h
        next st1 heqo =>
          obtain ⟨n1, m1, ew1⟩ := openRun_gframe mesh mbId st f (some m) st1 heqo
          rw [tail st1 (some m) h]
          exact ⟨n1, m1, ew1⟩
      · rw [tail st (some m) h]
        exact ⟨rfl, rfl, extendsWrites_refl _⟩
    next hm => cases h
  · split at h
    · split at h
      next e heqo => cases h
      next st1 heqo =>
        obtain ⟨n1, m1, ew1⟩ := openRun_gframe mesh mbId st f none st1 heqo
        rw [tail st1 none h]
        exact ⟨n1, m1, ew1⟩
    · rw [tail st none h]
      exact ⟨rfl, rfl, extendsWrites_refl _⟩

theorem foldFaces_gframe (mesh : Mesh) (mbId : ℕ) (faces : List Face) (st : MeshFold) :
    (foldFaces mesh mbId st faces).1.g.nodes = st.g.nodes ∧
    (foldFaces mesh mbId st faces).1.g.meshes = st.g.meshes ∧
    ExtendsWrites st.g (foldFaces mesh mbId st faces).1.g := by
  induction faces generalizing st with
  | nil => exact ⟨rfl, rfl, extendsWrites_refl _⟩
  | cons f rest ih =>
    simp only [foldFaces]
    cases hstep : meshFaceStep mesh mbId st f with
    | ok st1 =>
      obtain ⟨n1, m1, ew1⟩ := meshFaceStep_gframe mesh mbId st f st1 hstep
      obtain ⟨n2, m2, ew2⟩ := ih st1
      exact ⟨n2.trans n1, m2.trans m1, extendsWrites_trans ew1 ew2⟩
    | error e => exact ⟨rfl, rfl, extendsWrites_refl _⟩

theorem packFaces_gframe (mesh : Mesh) (mbId : ℕ) (faces : List Face) (st : MeshFold) :
    (packFaces mesh mbId st faces).1.g.nodes = st.g.nodes ∧
    (packFaces mesh mbId st faces).1.g.meshes = st.g.meshes ∧
    ExtendsWrites st.g (packFaces mesh mbId st faces).1.g := by
  obtain ⟨n1, m1, ew1⟩ := foldFaces_gframe mesh mbId faces st
  unfold packFaces
  split
  next st1 e heqf =>
    rw [heqf] at n1 m1 ew1
    exact ⟨n1, m1, ew1⟩
  next st1 heqf =>
    rw [heqf] at n1 m1 ew1
    split
    next hlast => exact ⟨n1, m1, ew1⟩
    next li hlast =>
      split
      next st2 p heqc =>
        obtain ⟨n2, m2, e2⟩ := completeMeshPrimitive_gframe mesh st1 li st2 p heqc
        refine ⟨n2.trans n1, m2.trans m1, ?_⟩
        exact extendsWrites_trans ew1 ⟨by rw [e2], [], by rw [e2]; simp, by simp⟩
      next e heqc => exact ⟨n1, m1, ew1⟩

theorem packFaces_gframe_out (mesh : Mesh) (mbId : ℕ) (faces : List Face)
    (st stF : MeshFold) (err : Option String)
    (heq : packFaces mesh mbId st faces = (stF, err)) :
    stF.g.nodes = st.g.nodes ∧ stF.g.meshes = st.g.meshes ∧
    ExtendsWrites st.g stF.g := by
  obtain ⟨a, b, c⟩ := packFaces_gframe mesh mbId faces st
  rw [heq] at a b c
  exact ⟨a, b, c⟩

theorem addMesh_gframe (g : glTF) (mesh : Mesh) :
    (addMesh g mesh).1.nodes = g.nodes ∧ ExtendsWrites g (addMesh g mesh).1 := by
  by_cases hmode : mesh.mode = MeshMode.TRIANGLES
  · unfold addMesh
    rcases hpair : addMaterials { g with meshes := some (g.meshes.getD []) } mesh.material
      with ⟨g2, idxs⟩
    have hfr := frame_addMaterials { g with meshes := some (g.meshes.getD []) } mesh.material
    rw [hpair] at hfr
    obtain ⟨hn, hm, ha, he⟩ := hfr
    have hn' : g2.nodes = g.nodes := hn
    simp only [hmode, hpair, ne_eq, eq_self_iff_true, not_true, ite_false, if_false]
    by_cases hglb : g2.extras.options.bufferOutputType = BufferOutputType.GLB
    · simp only [hglb, if_true, if_false, ite_true, ite_false, not_true, addBufferView]
      split
      next stF e heqp =>
        obtain ⟨pn, pm, pew⟩ := packFaces_gframe_out mesh _ mesh.faces _ _ _ heqp
        refine ⟨?_, ?_⟩
        · simp only [setMeshPrimitives]
          rw [pn]
          exact hn'
        · refine extendsWrites_trans (extendsWrites_trans ?_ pew) (extendsWrites_of_eq rfl rfl)
          obtain ⟨hb, tail, haw, hwb⟩ := he
          exact ⟨hb, tail, haw, hwb⟩
      next stF heqp =>
        obtain ⟨pn, pm, pew⟩ := packFaces_gframe_out mesh _ mesh.faces _ _ _ heqp
        refine ⟨?_, ?_⟩
        · simp only [setMeshPrimitives]
          rw [pn]
          exact hn'
        · refine extendsWrites_trans (extendsWrites_trans ?_ pew) (extendsWrites_of_eq rfl rfl)
          obtain ⟨hb, tail, haw, hwb⟩ := he
          exact ⟨hb, tail, haw, hwb⟩
    · simp only [hglb, ite_false, ite_true, not_false_iff, if_true, if_false, addBuffer,
        addBufferView, eq_self_iff_true]
      split
      next stF e heqp =>
        obtain ⟨pn, pm, pew⟩ := packFaces_gframe_out mesh _ mesh.faces _ _ _ heqp
        refine ⟨?_, ?_⟩
        · simp only [setMeshPrimitives]
          rw [pn]
          exact hn'
        · refine extendsWrites_trans (extendsWrites_trans ?_ pew) (extendsWrites_of_eq rfl rfl)
          obtain ⟨hb, tail, haw, hwb⟩ := he
          exact ⟨hb, tail, haw, hwb⟩
      next stF heqp =>
        obtain ⟨pn, pm, pew⟩ := packFaces_gframe_out mesh _ mesh.faces _ _ _ heqp
        refine ⟨?_, ?_⟩
        · simp only [setMeshPrimitives, finalizeBuffer]
          rw [pn]
          exact hn'
        · refine extendsWrites_trans (extendsWrites_trans ?_ pew) (extendsWrites_of_eq ?_ ?_)
          · obtain ⟨hb, tail, haw, hwb⟩ := he
            exact ⟨hb, tail, haw, hwb⟩
          · simp [setMeshPrimitives, finalizeBuffer]
          · simp [setMeshPrimitives, finalizeBuffer]
  · unfold addMesh
    rw [if_pos hmode]
    exact ⟨rfl, extendsWrites_of_eq rfl rfl⟩

/-! Node-walk framing: the recursive walk appends node entries and mutates
only the entry it just pushed (mesh index or child indices); entries that
existed before a call are preserved, and for the parent entry of a child
loop all fields except `children` are preserved. -/

/-- The transform-and-identity part of a node entry, which the child loop
never touches. -/
def glTFNode.trs (e : glTFNode) :
    Option String × Option (List ℚ) × Option (List ℚ) × Option (List ℚ) :=
  (e.name, e.translation, e.rotation, e.scale)

theorem get?_append_left_own {α : Type} (l t : List α) (i : ℕ) (h : i < l.length) :
    (l ++ t).get? i = l.get? i := by
  induction l generalizing i with
  | nil => cases h
  | cons a l ih =>
    cases i with
    | zero => rfl
    | succ j => exact ih j (Nat.lt_of_succ_lt_succ h)

theorem get?_append_len_own {α : Type} (l : List α) (x : α) :
    (l ++ [x]).get? l.length = some x := by
  induction l with
  | nil => rfl
  | cons a l ih => exact ih

theorem listUpdate_length {α : Type} (l : List α) (i : ℕ) (f : α → α) :
    (listUpdate l i f).length = l.length := by
  unfold listUpdate
  cases h : l.get? i with
  | none => rfl
  | some a => simp [List.length_set]

theorem listUpdate_get?_ne {α : Type} (l : List α) (i j : ℕ) (f : α → α) (hij : j ≠ i) :
    (listUpdate l i f).get? j = l.get? j := by
  unfold listUpdate
  cases h : l.get? i with
  | none => rfl
  | some a => exact List.get?_set_ne (f a) l (fun he => hij he.symm)

theorem listUpdate_get?_self {α : Type} (l : List α) (i : ℕ) (f : α → α) :
    (listUpdate l i f).get? i = (l.get? i).map f := by
  unfold listUpdate
  cases h : l.get? i with
  | none =>
    rw [h]
    rfl
  | some a =>
    rw [List.get?_set_eq, h]
    rfl

theorem updNode_len (g : glTF) (i : ℕ) (f : glTFNode → glTFNode) :
    ((updNode g i f).nodes.getD []).length = (g.nodes.getD []).length :=
  listUpdate_length _ _ _

theorem updNode_get?_ne (g : glTF) (i j : ℕ) (f : glTFNode → glTFNode) (hij : j ≠ i) :
    ((updNode g i f).nodes.getD []).get? j = (g.nodes.getD []).get? j :=
  listUpdate_get?_ne _ _ _ _ hij

theorem updNode_get?_self (g : glTF) (i : ℕ) (f : glTFNode → glTFNode) :
    ((updNode g i f).nodes.getD []).get? i = ((g.nodes.getD []).get? i).map f :=
  listUpdate_get?_self _ _ _

theorem attachChildren_fst (idx : ℕ) (res : glTF × Except String Unit) :
    (attachChildren idx res).1 = res.1 := by
  rcases res with ⟨g, r⟩
  cases r with
  | ok u => cases u; rfl
  | error e => rfl

theorem attachMesh_pres (idx : ℕ) (res : glTF × Except String ℕ) :
    ((attachMesh idx res).1.nodes.getD []).length = (res.1.nodes.getD []).length ∧
    (∀ i, i ≠ idx → ((attachMesh idx res).1.nodes.getD []).get? i =
      (res.1.nodes.getD []).get? i) ∧
    (((attachMesh idx res).1.nodes.getD []).get? idx).map glTFNode.trs =
      ((res.1.nodes.getD []).get? idx).map glTFNode.trs ∧
    (attachMesh idx res).1.extras = res.1.extras := by
  rcases res with ⟨g, r⟩
  cases r with
  | error e => exact ⟨rfl, fun i _ => rfl, rfl, rfl⟩
  | ok mi =>
    simp only [attachMesh]
    refine ⟨updNode_len g idx _, fun i hi => updNode_get?_ne g idx i _ hi, ?_, rfl⟩
    rw [updNode_get?_self]
    cases h : (g.nodes.getD []).get? idx with
    | none => rfl
    | some e => rfl

mutual
theorem addNode_preserves (g : glTF) (n : Node) :
    (g.nodes.getD []).length ≤ ((addNode g n).1.nodes.getD []).length ∧
    (∀ i, i < (g.nodes.getD []).length →
      ((addNode g n).1.nodes.getD []).get? i = (g.nodes.getD []).get? i) ∧
    ExtendsWrites g (addNode g n).1 := by
  cases n with
  | mk nm t r s meshOpt children =>
    cases meshOpt with
    | some mesh =>
      simp only [addNode, Option.getD_some]
      obtain ⟨aLen, aNe, aSelf, aEx⟩ :=
        attachMesh_pres ((g.nodes.getD []).length)
          (addMesh (pushNode { g with nodes := some (g.nodes.getD []) }
            (serializeNodeTransforms (.mk nm t r s (some mesh) children))) mesh)
      obtain ⟨mNodes, mEw⟩ :=
        addMesh_gframe (pushNode { g with nodes := some (g.nodes.getD []) }
          (serializeNodeTransforms (.mk nm t r s (some mesh) children))) mesh
      refine ⟨?_, ?_, ?_⟩
      · rw [aLen, mNodes]
        simp [pushNode]
      · intro i hi
        rw [aNe i (Nat.ne_of_lt hi), mNodes]
        simp only [pushNode]
        simpa using get?_append_left_own (g.nodes.getD []) _ i hi
      · refine extendsWrites_trans (extendsWrites_of_eq rfl rfl)
          (extendsWrites_trans mEw (extendsWrites_of_eq ?_ ?_)) <;> rw [aEx]
    | none =>
      simp only [addNode, Option.getD_some, attachChildren_fst]
      obtain ⟨cLen, cNe, cSelf, cEx⟩ :=
        addChildren_preserves
          (pushNode { g with nodes := some (g.nodes.getD []) }
            (serializeNodeTransforms (.mk nm t r s none children)))
          ((g.nodes.getD []).length) children
          (by simp [pushNode])
      refine ⟨?_, ?_, ?_⟩
      · refine le_trans ?_ cLen
        simp [pushNode]
      · intro i hi
        rw [cNe i (by simp [pushNode]; omega) (Nat.ne_of_lt hi)]
        simp only [pushNode]
        simpa using get?_append_left_own (g.nodes.getD []) _ i hi
      · exact extendsWrites_trans (extendsWrites_of_eq rfl rfl) cEx

theorem addChildren_preserves (g : glTF) (p : ℕ) (ns : NodeList)
    (hp : p < (g.nodes.getD []).length) :
    (g.nodes.getD []).length ≤ ((addChildren g p ns).1.nodes.getD []).length ∧
    (∀ i, i < (g.nodes.getD []).length → i ≠ p →
      ((addChildren g p ns).1.nodes.getD []).get? i = (g.nodes.getD []).get? i) ∧
    (((addChildren g p ns).1.nodes.getD []).get? p).map glTFNode.trs =
      ((g.nodes.getD []).get? p).map glTFNode.trs ∧
    ExtendsWrites g (addChildren g p ns).1 := by
  cases ns with
  | nil => exact ⟨le_refl _, fun i _ _ => rfl, rfl, extendsWrites_refl _⟩
  | cons n rest =>
    simp only [addChildren]
    obtain ⟨nLen, nPres, nEw⟩ := addNode_preserves g n
    rcases hres : addNode g n with ⟨g1, r1⟩
    rw [hres] at nLen nPres nEw
    cases r1 with
    | error e =>
      exact ⟨nLen, fun i hi _ => nPres i hi,
        congrArg (Option.map glTFNode.trs) (nPres p hp), nEw⟩
    | ok ci =>
      have hp1 : p < ((updNode g1 p
          (fun e => { e with children := some ((e.children.getD []) ++ [ci]) })).nodes.getD
            []).length := by
        rw [updNode_len]
        exact lt_of_lt_of_le hp nLen
      obtain ⟨rLen, rNe, rSelf, rEw⟩ :=
        addChildren_preserves
          (updNode g1 p (fun e => { e with children := some ((e.children.getD []) ++ [ci]) }))
          p rest hp1
      refine ⟨?_, ?_, ?_, ?_⟩
      · refine le_trans nLen (le_trans ?_ rLen)
        rw [updNode_len]
      · intro i hi hip
        rw [rNe i (by rw [updNode_len]; exact lt_of_lt_of_le hi nLen) hip,
          updNode_get?_ne g1 p i _ hip]
        exact nPres i hi
      · rw [rSelf, updNode_get?_self, nPres p hp]
        cases hpe : (g.nodes.getD []).get? p with
        | none => rfl
        | some e => rfl
      · exact extendsWrites_trans nEw
          (extendsWrites_trans (extendsWrites_of_eq rfl rfl) rEw)
end

theorem addNode_entry (g : glTF) (n : Node) :
    (((addNode g n).1.nodes.getD []).get? ((g.nodes.getD []).length)).map glTFNode.trs =
      some (glTFNode.trs (serializeNodeTransforms n)) := by
  cases n with
  | mk nm t r s meshOpt children =>
    cases meshOpt with
    | some mesh =>
      simp only [addNode, Option.getD_some]
      obtain ⟨aLen, aNe, aSelf, aEx⟩ := attachMesh_pres ((g.nodes.getD []).length)
        (addMesh (pushNode { g with nodes := some (g.nodes.getD []) }
          (serializeNodeTransforms (.mk nm t r s (some mesh) children))) mesh)
      rw [aSelf]
      obtain ⟨mNodes, _⟩ := addMesh_gframe (pushNode { g with nodes := some (g.nodes.getD []) }
        (serializeNodeTransforms (.mk nm t r s (some mesh) children))) mesh
      rw [mNodes]
      simp only [pushNode, Option.getD_some]
      rw [get?_append_len_own]
      rfl
    | none =>
      simp only [addNode, Option.getD_some, attachChildren_fst]
      obtain ⟨cLen, cNe, cSelf, cEx⟩ := addChildren_preserves
        (pushNode { g with nodes := some (g.nodes.getD []) }
          (serializeNodeTransforms (.mk nm t r s none children)))
        ((g.nodes.getD []).length) children (by simp [pushNode])
      rw [cSelf]
      simp only [pushNode, Option.getD_some]
      rw [get?_append_len_own]
      rfl

theorem serializeNodeTransforms_fields (n : Node) :
    (serializeNodeTransforms n).translation =
      (if n.getTranslation = ⟨0, 0, 0⟩ then none
       else some [n.getTranslation.x, n.getTranslation.y, n.getTranslation.z]) ∧
    (serializeNodeTransforms n).rotation =
      (if n.getRotationQuaternion = ⟨0, 0, 0, 1⟩ then none
       else some [n.getRotationQuaternion.x, n.getRotationQuaternion.y,
         n.getRotationQuaternion.z, n.getRotationQuaternion.w]) ∧
    (serializeNodeTransforms n).scale =
      (if n.getScale = ⟨1, 1, 1⟩ then none
       else some [n.getScale.x, n.getScale.y, n.getScale.z]) := by
  rcases ht : n.getTranslation with ⟨tx, ty, tz⟩
  rcases hr : n.getRotationQuaternion with ⟨rx, ry, rz, rqw⟩
  rcases hs : n.getScale with ⟨sx, sy, sz⟩
  have hT : (serializeNodeTransforms n).translation =
      (if tx ≠ 0 ∨ ty ≠ 0 ∨ tz ≠ 0 then some [tx, ty, tz] else none) := by
    unfold serializeNodeTransforms
    rw [ht, hr, hs]
    by_cases c2 : rx ≠ 0 ∨ ry ≠ 0 ∨ rz ≠ 0 ∨ rqw ≠ 1 <;>
      by_cases c3 : sx ≠ 1 ∨ sy ≠ 1 ∨ sz ≠ 1 <;>
        by_cases c1 : tx ≠ 0 ∨ ty ≠ 0 ∨ tz ≠ 0 <;>
          simp [c1, c2, c3]
  have hR : (serializeNodeTransforms n).rotation =
      (if rx ≠ 0 ∨ ry ≠ 0 ∨ rz ≠ 0 ∨ rqw ≠ 1 then some [rx, ry, rz, rqw] else none) := by
    unfold serializeNodeTransforms
    rw [ht, hr, hs]
    by_cases c1 : tx ≠ 0 ∨ ty ≠ 0 ∨ tz ≠ 0 <;>
      by_cases c3 : sx ≠ 1 ∨ sy ≠ 1 ∨ sz ≠ 1 <;>
        by_cases c2 : rx ≠ 0 ∨ ry ≠ 0 ∨ rz ≠ 0 ∨ rqw ≠ 1 <;>
          simp [c1, c2, c3]
  have hS : (serializeNodeTransforms n).scale =
      (if sx ≠ 1 ∨ sy ≠ 1 ∨ sz ≠ 1 then some [sx, sy, sz] else none) := by
    unfold serializeNodeTransforms
    rw [ht, hr, hs]
    by_cases c1 : tx ≠ 0 ∨ ty ≠ 0 ∨ tz ≠ 0 <;>
      by_cases c2 : rx ≠ 0 ∨ ry ≠ 0 ∨ rz ≠ 0 ∨ rqw ≠ 1 <;>
        by_cases c3 : sx ≠ 1 ∨ sy ≠ 1 ∨ sz ≠ 1 <;>
          simp [c1, c2, c3]
  refine ⟨?_, ?_, ?_⟩
  · rw [hT]
    by_cases hc : tx = 0 ∧ ty = 0 ∧ tz = 0
    · obtain ⟨e1, e2, e3⟩ := hc
      subst e1
      subst e2
      subst e3
      simp
    · have hd : tx ≠ 0 ∨ ty ≠ 0 ∨ tz ≠ 0 := by tauto
      simp [hd, Vector3.mk.injEq, hc]
  · rw [hR]
    by_cases hc : rx = 0 ∧ ry = 0 ∧ rz = 0 ∧ rqw = 1
    · obtain ⟨e1, e2, e3, e4⟩ := hc
      subst e1
      subst e2
      subst e3
      subst e4
      simp
    · have hd : rx ≠ 0 ∨ ry ≠ 0 ∨ rz ≠ 0 ∨ rqw ≠ 1 := by tauto
      simp [hd, Quaternion.mk.injEq, hc]
  · rw [hS]
    by_cases hc : sx = 1 ∧ sy = 1 ∧ sz = 1
    · obtain ⟨e1, e2, e3⟩ := hc
      subst e1
      subst e2
      subst e3
      simp
    · have hd : sx ≠ 1 ∨ sy ≠ 1 ∨ sz ≠ 1 := by tauto
      simp [hd, Vector3.mk.injEq, hc]

/-- C8: a serialized node omits each of translation, rotation, and scale
exactly when it equals its identity value ((0,0,0), (0,0,0,1), (1,1,1)
respectively); any deviation, even in a single component, makes the field
appear with all of its components. -/
theorem c8_identity_transforms_omitted (g : glTF) (n : Node) :
    ∃ e, ((addNode g n).1.nodes.getD []).get? ((g.nodes.getD []).length) = some e ∧
      e.translation = (if n.getTranslation = ⟨0, 0, 0⟩ then none
        else some [n.getTranslation.x, n.getTranslation.y, n.getTranslation.z]) ∧
      e.rotation = (if n.getRotationQuaternion = ⟨0, 0, 0, 1⟩ then none
        else some [n.getRotationQuaternion.x, n.getRotationQuaternion.y,
          n.getRotationQuaternion.z, n.getRotationQuaternion.w]) ∧
      e.scale = (if n.getScale = ⟨1, 1, 1⟩ then none
        else some [n.getScale.x, n.getScale.y, n.getScale.z]) := by
  have h := addNode_entry g n
  cases he : ((addNode g n).1.nodes.getD []).get? ((g.nodes.getD []).length) with
  | none =>
    rw [he] at h
    cases h
  | some e =>
    rw [he] at h
    injection h with h
    obtain ⟨fT, fR, fS⟩ := serializeNodeTransforms_fields n
    have h1 : e.translation = (serializeNodeTransforms n).translation :=
      congrArg (fun q => q.2.1) h
    have h2 : e.rotation = (serializeNodeTransforms n).rotation :=
      congrArg (fun q => q.2.2.1) h
    have h3 : e.scale = (serializeNodeTransforms n).scale :=
      congrArg (fun q => q.2.2.2) h
    exact ⟨e, rfl, h1.trans fT, h2.trans fR, h3.trans fS⟩

theorem toInt32_small (n : ℤ) (h1 : -(2 ^ 31) ≤ n) (h2 : n < 2 ^ 31) : toInt32 n = n := by
  unfold toInt32
  omega

theorem jsOrZero_unit (q : ℚ) (h0 : 0 ≤ q) (h1 : q ≤ 1) :
    jsOrZero (q * 255) = ratTrunc (q * 255) ∧ ratTrunc (q * 255) = ⌊q * 255⌋ := by
  have hq0 : (0 : ℚ) ≤ q * 255 := by positivity
  have htr : ratTrunc (q * 255) = ⌊q * 255⌋ := by
    unfold ratTrunc
    rw [if_pos hq0]
  refine ⟨?_, htr⟩
  unfold jsOrZero
  rw [htr]
  apply toInt32_small
  · have : (0 : ℤ) ≤ ⌊q * 255⌋ := Int.floor_nonneg.mpr hq0
    omega
  · have hle : q * 255 ≤ 255 := by nlinarith
    have : ⌊q * 255⌋ ≤ ⌊(255 : ℚ)⌋ := Int.floor_le_floor hle
    have h255 : ⌊(255 : ℚ)⌋ = 255 := by norm_num
    omega

/-- C7: each color element is quantized from a [0,1] float to a [0,255]
byte by multiplying by 255 and truncating toward zero; a missing alpha
channel is replaced by 255 (0xFF) and the packer's substitute for a missing
face or vertex color is black (0,0,0), which quantizes to bytes
(0,0,0,255).  In particular (0.5, 1.0, 0.0) with no alpha yields bytes
(127, 255, 0, 255). -/
theorem c7_color_quantization (bufferView : BufferView) (r g b : ℚ)
    (hr0 : 0 ≤ r) (hr1 : r ≤ 1) (hg0 : 0 ≤ g) (hg1 : g ≤ 1) (hb0 : 0 ≤ b) (hb1 : b ≤ 1) :
    (addColorToBufferView bufferView (.rgb r g b)).data =
      bufferView.data ++ [((ratTrunc (r * 255) : ℤ) : ℚ), ((ratTrunc (g * 255) : ℤ) : ℚ),
        ((ratTrunc (b * 255) : ℤ) : ℚ), 255] ∧
    (∀ a, 0 ≤ a → a ≤ 1 →
      (addColorToBufferView bufferView (.rgba r g b a)).data =
        bufferView.data ++ [((ratTrunc (r * 255) : ℤ) : ℚ), ((ratTrunc (g * 255) : ℤ) : ℚ),
          ((ratTrunc (b * 255) : ℤ) : ℚ), ((ratTrunc (a * 255) : ℤ) : ℚ)]) ∧
    (addColorToBufferView bufferView RGBColorDefault).data =
      bufferView.data ++ [0, 0, 0, 255] ∧
    (addColorToBufferView bufferView (.rgb (1 / 2) 1 0)).data =
      bufferView.data ++ [127, 255, 0, 255] := by
  obtain ⟨hjr, _⟩ := jsOrZero_unit r hr0 hr1
  obtain ⟨hjg, _⟩ := jsOrZero_unit g hg0 hg1
  obtain ⟨hjb, _⟩ := jsOrZero_unit b hb0 hb1
  refine ⟨?_, ?_, ?_, ?_⟩
  · simp [addColorToBufferView, BufferView.push, hjr, hjg, hjb]
  · intro a ha0 ha1
    obtain ⟨hja, _⟩ := jsOrZero_unit a ha0 ha1
    simp [addColorToBufferView, BufferView.push, hjr, hjg, hjb, hja]
  · simp [addColorToBufferView, BufferView.push, RGBColorDefault]
    norm_num [jsOrZero, ratTrunc, toInt32]
  · simp [addColorToBufferView, BufferView.push]
    norm_num [jsOrZero, ratTrunc, toInt32]

/-- C7 witness: the claim's concrete instance (0.5, 1.0, 0.0). -/
theorem c7_witness :
    ((0 : ℚ) ≤ 1 / 2 ∧ (1 / 2 : ℚ) ≤ 1) ∧
    (addColorToBufferView ⟨0, 0, .UNSIGNED_BYTE, .VEC4, [], none, 0, 0, []⟩
        (.rgb (1 / 2) 1 0)).data = [127, 255, 0, 255] :=
  ⟨⟨by norm_num, by norm_num⟩,
    ((c7_color_quantization ⟨0, 0, .UNSIGNED_BYTE, .VEC4, [], none, 0, 0, []⟩ (1 / 2) 1 0
      (by norm_num) (by norm_num) (by norm_num) (by norm_num) (by norm_num)
      (by norm_num)).2.2.2).trans (by decide)⟩

/-- Modelled from the spec: the claim's notion of sampler equality — the
two textures agree on wrap-S, wrap-T AND the optional magFilter / minFilter
fields.  Stated from the claim's words, for comparison with the dedup the
source actually performs (which builds the record via samplerOf). -/
def specSamplerStructEq (t1 t2 : Texture) : Bool :=
  decide (t1.wrapS = t2.wrapS ∧ t1.wrapT = t2.wrapT ∧
    t1.magFilter = t2.magFilter ∧ t1.minFilter = t2.minFilter)

theorem findIdxP_none_iff {α : Type} (p : α → Bool) (l : List α) :
    findIdxP p l = none ↔ ∀ a ∈ l, p a = false := by
  induction l with
  | nil => simp [findIdxP]
  | cons a l ih =>
    cases hp : p a with
    | true => simp [findIdxP, hp]
    | false => simp [findIdxP, hp, ih]

theorem findIdxP_some_get {α : Type} (p : α → Bool) (l : List α) (i : ℕ)
    (h : findIdxP p l = some i) : ∃ a, l.get? i = some a ∧ p a = true := by
  induction l generalizing i with
  | nil => simp [findIdxP] at h
  | cons a l ih =>
    cases hp : p a with
    | true =>
      simp [findIdxP, hp] at h
      subst h
      exact ⟨a, rfl, hp⟩
    | false =>
      simp [findIdxP, hp] at h
      obtain ⟨j, hj, hij⟩ := h
      subst hij
      obtain ⟨b, hb, hpb⟩ := ih j hj
      exact ⟨b, hb, hpb⟩

theorem findIdxP_some_min {α : Type} (p : α → Bool) (l : List α) (i : ℕ)
    (h : findIdxP p l = some i) :
    ∀ j < i, ∀ a, l.get? j = some a → p a = false := by
  induction l generalizing i with
  | nil => simp [findIdxP] at h
  | cons a l ih =>
    cases hp : p a with
    | true =>
      simp [findIdxP, hp] at h
      subst h
      intro j hj
      exact absurd hj (Nat.not_lt_zero j)
    | false =>
      simp [findIdxP, hp] at h
      obtain ⟨k, hk, hik⟩ := h
      subst hik
      intro j hj b hb
      cases j with
      | zero =>
        injection hb with hb
        subst hb
        exact hp
      | succ j =>
        exact ih k hk j (Nat.lt_of_succ_lt_succ hj) b hb

theorem findIdxP_append_singleton_none {α : Type} (p : α → Bool) (l : List α) (x : α)
    (hl : findIdxP p l = none) (hx : p x = true) :
    findIdxP p (l ++ [x]) = some l.length := by
  induction l with
  | nil => simp [findIdxP, hx]
  | cons a l ih =>
    cases hp : p a with
    | true => simp [findIdxP, hp] at hl
    | false =>
      simp [findIdxP, hp] at hl ⊢
      exact ih hl

theorem addSampler_entry (g : glTF) (t : Texture) :
    ((addSampler g t).1.samplers.getD []).get? (addSampler g t).2 =
      some (samplerOf t) := by
  unfold addSampler
  cases h : findIdxP (fun s => objectsEqual (samplerOf t) s) (g.samplers.getD []) with
  | some i =>
    obtain ⟨a, ha, hpa⟩ := findIdxP_some_get _ _ _ h
    simp only [objectsEqual, decide_eq_true_eq] at hpa
    simp only [h, Option.getD_some]
    rw [ha, hpa]
  | none =>
    simp only [h, Option.getD_some]
    exact get?_append_len_own _ _

theorem addSampler_preserves_entry (g : glTF) (t : Texture) (j : ℕ) (y : glTFSampler)
    (h : (g.samplers.getD []).get? j = some y) :
    ((addSampler g t).1.samplers.getD []).get? j = some y := by
  have hlt : j < (g.samplers.getD []).length := by
    by_contra hge
    rw [List.get?_eq_none.mpr (Nat.le_of_not_lt hge)] at h
    exact Option.noConfusion h
  unfold addSampler
  cases hf : findIdxP (fun s => objectsEqual (samplerOf t) s) (g.samplers.getD []) with
  | some i =>
    simp only [hf, Option.getD_some]
    exact h
  | none =>
    simp only [hf, Option.getD_some]
    rw [get?_append_left_own _ _ _ hlt]
    exact h

theorem addSampler_idx_congr (g : glTF) (t1 t2 : Texture)
    (hst : samplerOf t1 = samplerOf t2) :
    (addSampler (addSampler g t1).1 t2).2 = (addSampler g t1).2 := by
  unfold addSampler
  cases hf : findIdxP (fun s => objectsEqual (samplerOf t1) s) (g.samplers.getD []) with
  | some i =>
    simp only [hf, Option.getD_some, ← hst, hf]
  | none =>
    simp only [hf, Option.getD_some, ← hst]
    rw [findIdxP_append_singleton_none _ _ _ hf (by simp [objectsEqual])]

theorem addSampler_idx_inj (g : glTF) (t1 t2 : Texture)
    (h : (addSampler (addSampler g t1).1 t2).2 = (addSampler g t1).2) :
    samplerOf t1 = samplerOf t2 := by
  have h1 := addSampler_entry g t1
  have h1p := addSampler_preserves_entry (addSampler g t1).1 t2 _ _ h1
  have h2 := addSampler_entry (addSampler g t1).1 t2
  rw [h, h1p] at h2
  exact Option.some.inj h2

theorem addSampler_found (g : glTF) (t : Texture)
    (h : ∃ a ∈ g.samplers.getD [], a = samplerOf t) :
    (g.samplers.getD []).get? (addSampler g t).2 = some (samplerOf t) ∧
    (∀ j < (addSampler g t).2, ∀ a, (g.samplers.getD []).get? j = some a →
      a ≠ samplerOf t) ∧
    (addSampler g t).1.samplers = some (g.samplers.getD []) := by
  have hne : findIdxP (fun s => objectsEqual (samplerOf t) s) (g.samplers.getD []) ≠
      none := by
    intro hn
    obtain ⟨a, hal, ha⟩ := h
    have hfa := (findIdxP_none_iff _ _).mp hn a hal
    rw [ha] at hfa
    simp [objectsEqual] at hfa
  cases hf : findIdxP (fun s => objectsEqual (samplerOf t) s) (g.samplers.getD []) with
  | none => exact absurd hf hne
  | some i =>
    obtain ⟨a, ha, hpa⟩ := findIdxP_some_get _ _ _ hf
    simp only [objectsEqual, decide_eq_true_eq] at hpa
    have hmin := findIdxP_some_min _ _ _ hf
    unfold addSampler
    simp only [hf]
    refine ⟨?_, ?_, by trivial⟩
    · rw [ha, ← hpa]
    · intro j hj b hb hbt
      have hfb := hmin j hj b hb
      rw [hbt] at hfb
      simp [objectsEqual] at hfb

theorem addSampler_miss (g : glTF) (t : Texture)
    (h : ∀ a ∈ g.samplers.getD [], a ≠ samplerOf t) :
    (addSampler g t).2 = (g.samplers.getD []).length ∧
    (addSampler g t).1.samplers = some (g.samplers.getD [] ++ [samplerOf t]) := by
  have hf : findIdxP (fun s => objectsEqual (samplerOf t) s) (g.samplers.getD []) =
      none := by
    rw [findIdxP_none_iff]
    intro a hal
    simp only [objectsEqual, decide_eq_false_iff_not]
    intro he
    exact h a hal he.symm
  unfold addSampler
  simp only [hf]
  exact ⟨by trivial, by trivial⟩

/-- C4: the claim says sampler dedup compares textures structurally over
wrap-S, wrap-T AND the optional magFilter / minFilter fields.  The source
builds the compared record from wrapS and wrapT only (gltf.ts:399-402), so
the correct statement is: registering t2 after t1 returns the same index
iff the two textures agree on wrapS and wrapT — the filter fields play no
role; on a match the index of the first previously registered sampler equal
to the built record is returned and nothing is appended, otherwise a new
sampler entry is appended at the old length. -/
theorem c4_sampler_dedup_wraps_only (g : glTF) (t1 t2 : Texture) :
    ((addSampler (addSampler g t1).1 t2).2 = (addSampler g t1).2 ↔
      (t1.wrapS = t2.wrapS ∧ t1.wrapT = t2.wrapT)) ∧
    ((∃ a ∈ (addSampler g t1).1.samplers.getD [], a = samplerOf t2) →
      ((addSampler g t1).1.samplers.getD []).get?
          (addSampler (addSampler g t1).1 t2).2 = some (samplerOf t2) ∧
      (∀ j < (addSampler (addSampler g t1).1 t2).2, ∀ a,
        ((addSampler g t1).1.samplers.getD []).get? j = some a →
          a ≠ samplerOf t2) ∧
      (addSampler (addSampler g t1).1 t2).1.samplers =
        some ((addSampler g t1).1.samplers.getD [])) ∧
    ((∀ a ∈ (addSampler g t1).1.samplers.getD [], a ≠ samplerOf t2) →
      (addSampler (addSampler g t1).1 t2).2 =
        ((addSampler g t1).1.samplers.getD []).length ∧
      (addSampler (addSampler g t1).1 t2).1.samplers =
        some ((addSampler g t1).1.samplers.getD [] ++ [samplerOf t2])) := by
  refine ⟨⟨?_, ?_⟩, addSampler_found _ t2, addSampler_miss _ t2⟩
  · intro h
    have hst := addSampler_idx_inj g t1 t2 h
    simp only [samplerOf, glTFSampler.mk.injEq] at hst
    exact hst
  · rintro ⟨hws, hwt⟩
    exact addSampler_idx_congr g t1 t2 (by simp [samplerOf, hws, hwt])

/-- C4 counterexample to the claim as stated: two textures with equal wrap
modes but DIFFERENT magFilter values (9728 vs 9729) receive the same
sampler index from successive registrations, yet they are not structurally
equal over all sampler fields including the filters. -/
theorem c4_counterexample :
    (addSampler
        (addSampler (createEmptyGLTF ⟨.DataURI, .DataURI⟩)
          ⟨.CLAMP_TO_EDGE, .CLAMP_TO_EDGE, some 9728, some 9729, ⟨0, none⟩⟩).1
        ⟨.CLAMP_TO_EDGE, .CLAMP_TO_EDGE, some 9729, some 9729, ⟨0, none⟩⟩).2 =
      (addSampler (createEmptyGLTF ⟨.DataURI, .DataURI⟩)
        ⟨.CLAMP_TO_EDGE, .CLAMP_TO_EDGE, some 9728, some 9729, ⟨0, none⟩⟩).2 ∧
    specSamplerStructEq
      ⟨.CLAMP_TO_EDGE, .CLAMP_TO_EDGE, some 9728, some 9729, ⟨0, none⟩⟩
      ⟨.CLAMP_TO_EDGE, .CLAMP_TO_EDGE, some 9729, some 9729, ⟨0, none⟩⟩ = false := by
  decide

/-- C4 witness: a fresh-miss registration with different wrap modes appends
at the old length. -/
theorem c4_witness :
    (∀ a ∈ ((addSampler (createEmptyGLTF ⟨.DataURI, .DataURI⟩)
        ⟨.CLAMP_TO_EDGE, .CLAMP_TO_EDGE, none, none, ⟨0, none⟩⟩).1.samplers.getD []),
      a ≠ samplerOf ⟨.REPEAT, .REPEAT, none, none, ⟨0, none⟩⟩) ∧
    ((addSampler (addSampler (createEmptyGLTF ⟨.DataURI, .DataURI⟩)
          ⟨.CLAMP_TO_EDGE, .CLAMP_TO_EDGE, none, none, ⟨0, none⟩⟩).1
        ⟨.REPEAT, .REPEAT, none, none, ⟨0, none⟩⟩).2 =
      ((addSampler (createEmptyGLTF ⟨.DataURI, .DataURI⟩)
        ⟨.CLAMP_TO_EDGE, .CLAMP_TO_EDGE, none, none,
          ⟨0, none⟩⟩).1.samplers.getD []).length ∧
     (addSampler (addSampler (createEmptyGLTF ⟨.DataURI, .DataURI⟩)
          ⟨.CLAMP_TO_EDGE, .CLAMP_TO_EDGE, none, none, ⟨0, none⟩⟩).1
        ⟨.REPEAT, .REPEAT, none, none, ⟨0, none⟩⟩).1.samplers =
      some ((addSampler (createEmptyGLTF ⟨.DataURI, .DataURI⟩)
          ⟨.CLAMP_TO_EDGE, .CLAMP_TO_EDGE, none, none, ⟨0, none⟩⟩).1.samplers.getD [] ++
        [samplerOf ⟨.REPEAT, .REPEAT, none, none, ⟨0, none⟩⟩])) :=
  ⟨by decide,
    (c4_sampler_dedup_wraps_only (createEmptyGLTF ⟨.DataURI, .DataURI⟩)
      ⟨.CLAMP_TO_EDGE, .CLAMP_TO_EDGE, none, none, ⟨0, none⟩⟩
      ⟨.REPEAT, .REPEAT, none, none, ⟨0, none⟩⟩).2.2 (by decide)⟩

theorem findIdxP_congr {α : Type} (p q : α → Bool) (l : List α)
    (h : ∀ a ∈ l, p a = q a) : findIdxP p l = findIdxP q l := by
  induction l with
  | nil => rfl
  | cons a l ih =>
    rw [findIdxP, findIdxP, h a (List.mem_cons_self a l),
      ih (fun b hb => h b (List.mem_cons_of_mem a hb))]

/-- The image dedup predicates for two pass-through handles with the same
uri string agree on every entry satisfying the uri-consistency invariant. -/
theorem matchesImage_congr (image1 image2 : ImageHandle) (u : String)
    (h1 : image1.uri = some u) (h2 : image2.uri = some u) (e : glTFImage)
    (hinv : ∀ v, e.extras.uri = some v → e.uri = some v) :
    matchesImage image1 e = matchesImage image2 e := by
  unfold matchesImage
  rw [h1, h2]
  by_cases hu : e.uri = some u
  · simp [hu]
  · have hx1 : ¬e.extras = image1 := fun he => hu (hinv u (by rw [he, h1]))
    have hx2 : ¬e.extras = image2 := fun he => hu (hinv u (by rw [he, h2]))
    simp [hu, hx1, hx2]

theorem addImage_hit (g : glTF) (image : ImageHandle) (i : ℕ)
    (hf : findIdxP (matchesImage image) (g.images.getD []) = some i) :
    addImage g image = ({ g with images := some (g.images.getD []) }, i) := by
  unfold addImage
  simp only [hf]

theorem addImage_miss_entry (g : glTF) (image : ImageHandle)
    (hf : findIdxP (matchesImage image) (g.images.getD []) = none) :
    (addImage g image).2 = (g.images.getD []).length ∧
    ∃ entry : glTFImage, entry.extras = image ∧
      (addImage g image).1.images = some (g.images.getD [] ++ [entry]) := by
  unfold addImage
  simp only [hf]
  cases hu : image.uri with
  | some u =>
    simp only [hu]
    exact ⟨by trivial, { extras := image, uri := some u }, by trivial, by trivial⟩
  | none =>
    simp only [hu]
    cases ho : g.extras.options.imageOutputType with
    | GLB =>
      simp only [ho]
      cases habv : addBufferView { g with images := some (g.images.getD []) }
          (g.extras.binChunkBuffer.getD 0) ComponentType.UNSIGNED_BYTE DataType.SCALAR with
      | mk ga bv =>
        simp only [habv]
        exact ⟨by trivial,
          { extras := image, bufferView := some bv.index, mimeType := some "image/png" },
          by trivial, by trivial⟩
    | DataURI =>
      simp only [ho]
      exact ⟨by trivial, { extras := image, uri := some (imageToDataURI image) }, by trivial, by trivial⟩
    | External =>
      simp only [ho]
      exact ⟨by trivial, { extras := image }, by trivial, by trivial⟩

theorem addImage_miss_uri (g : glTF) (image : ImageHandle) (u : String)
    (hu : image.uri = some u)
    (hf : findIdxP (matchesImage image) (g.images.getD []) = none) :
    addImage g image =
      ({ g with
          images := some (g.images.getD [] ++ [{ extras := image, uri := some u }]) },
        (g.images.getD []).length) := by
  unfold addImage
  simp only [hf, hu]

/-- C6: a second image registration whose argument is the identical handle,
or a pass-through image with the same uri string (given the invariant that
every existing entry created from a pass-through handle records that uri),
returns the index assigned by the first registration and appends no image
entry; a registration matching no prior entry appends one entry (carrying
the handle in extras) at the previous length of the images array, which is
the index it returns. -/
theorem c6_image_dedup (g : glTF) (image1 image2 : ImageHandle)
    (hinv : ∀ e ∈ g.images.getD [], ∀ v, e.extras.uri = some v → e.uri = some v)
    (hkey : image2 = image1 ∨ ∃ u, image1.uri = some u ∧ image2.uri = some u) :
    ((addImage (addImage g image1).1 image2).2 = (addImage g image1).2 ∧
      (addImage (addImage g image1).1 image2).1.images.getD [] =
        (addImage g image1).1.images.getD []) ∧
    ((∀ e ∈ g.images.getD [], matchesImage image1 e = false) →
      (addImage g image1).2 = (g.images.getD []).length ∧
      ∃ entry : glTFImage, entry.extras = image1 ∧
        (addImage g image1).1.images = some (g.images.getD [] ++ [entry])) := by
  constructor
  · have key : findIdxP (matchesImage image2) ((addImage g image1).1.images.getD []) =
        some (addImage g image1).2 := by
      cases hf : findIdxP (matchesImage image1) (g.images.getD []) with
      | some i =>
        rw [addImage_hit g image1 i hf]
        simp only [Option.getD_some]
        rcases hkey with h | ⟨u, h1, h2⟩
        · subst h
          exact hf
        · rw [findIdxP_congr (matchesImage image2) (matchesImage image1) _
            (fun e he => (matchesImage_congr image1 image2 u h1 h2 e (hinv e he)).symm)]
          exact hf
      | none =>
        rcases hkey with h | ⟨u, h1, h2⟩
        · subst h
          obtain ⟨hlen, entry, hext, himg⟩ := addImage_miss_entry g image2 hf
          rw [himg]
          simp only [Option.getD_some]
          rw [hlen]
          exact findIdxP_append_singleton_none _ _ _ hf (by simp [matchesImage, hext])
        · rw [addImage_miss_uri g image1 u h1 hf]
          simp only [Option.getD_some]
          have hpref : findIdxP (matchesImage image2) (g.images.getD []) = none := by
            rw [findIdxP_congr (matchesImage image2) (matchesImage image1) _
              (fun e he => (matchesImage_congr image1 image2 u h1 h2 e (hinv e he)).symm)]
            exact hf
          exact findIdxP_append_singleton_none _ _ _ hpref (by simp [matchesImage, h2])
    rw [addImage_hit _ image2 _ key]
    exact ⟨rfl, rfl⟩
  · intro hnone
    exact addImage_miss_entry g image1 ((findIdxP_none_iff _ _).mpr hnone)

/-- C6 witness: two pass-through registrations with the same uri string into
an empty document — the second returns the index of the first and the image
list is unchanged. -/
theorem c6_witness :
    ((∀ e ∈ (createEmptyGLTF ⟨.External, .External⟩).images.getD [],
        ∀ v, e.extras.uri = some v → e.uri = some v) ∧
      ((⟨1, some "a.png"⟩ : ImageHandle) = ⟨0, some "a.png"⟩ ∨
        ∃ u, (⟨0, some "a.png"⟩ : ImageHandle).uri = some u ∧
          (⟨1, some "a.png"⟩ : ImageHandle).uri = some u)) ∧
    ((addImage (addImage (createEmptyGLTF ⟨.External, .External⟩) ⟨0, some "a.png"⟩).1
        ⟨1, some "a.png"⟩).2 =
      (addImage (createEmptyGLTF ⟨.External, .External⟩) ⟨0, some "a.png"⟩).2 ∧
      (addImage (addImage (createEmptyGLTF ⟨.External, .External⟩) ⟨0, some "a.png"⟩).1
        ⟨1, some "a.png"⟩).1.images.getD [] =
      (addImage (createEmptyGLTF ⟨.External, .External⟩)
        ⟨0, some "a.png"⟩).1.images.getD []) :=
  ⟨⟨fun e he => absurd he (List.not_mem_nil e), Or.inr ⟨"a.png", rfl, rfl⟩⟩,
    (c6_image_dedup (createEmptyGLTF ⟨.External, .External⟩) ⟨0, some "a.png"⟩
      ⟨1, some "a.png"⟩ (fun e he => absurd he (List.not_mem_nil e))
      (Or.inr ⟨"a.png", rfl, rfl⟩)).1⟩

theorem addMaterial_index_nopbr (g : glTF) (m : Material)
    (hpbr : m.pbrMetallicRoughness = none) :
    (addMaterial g m).2 = (g.materials.getD []).length := by
  unfold addMaterial
  simp only [hpbr, Option.getD_some]

/-- C1: refuted — addMesh computes the document-global indices by calling
addMaterials on the mesh's material list, but DISCARDS the returned index
list (gltf.ts:97); each emitted primitive keeps the mesh-local material
index of its face run (gltf.ts:150).  For any document that already holds
at least one material, adding a one-material mesh registers that material
at a document index ≥ 1, while the emitted primitive's material field is
still the mesh-local 0. -/
theorem c1_material_not_remapped (g : glTF) (matB : Material) (f : Face)
    (hfm : f.materialIndex = 0)
    (hpbr : matB.pbrMetallicRoughness = none)
    (hn : 1 ≤ (g.materials.getD []).length) :
    ∃ gf p,
      addMesh g ⟨.TRIANGLES, [matB], [f]⟩ = (gf, .ok ((g.meshes.getD []).length)) ∧
      gf.meshes.getD [] = g.meshes.getD [] ++ [⟨[p]⟩] ∧
      (addMaterials { g with meshes := some (g.meshes.getD []) } [matB]).2 =
        [(g.materials.getD []).length] ∧
      p.material = some 0 ∧
      p.material ≠ some ((g.materials.getD []).length : ℤ) := by
  have hval : ∀ fc ∈ ([f] : List Face), 0 ≤ fc.materialIndex →
      fc.materialIndex.toNat < ([matB] : List Material).length := by
    intro fc hfc hpos
    have : fc = f := by simpa using hfc
    subst this
    rw [hfm]
    simp
  obtain ⟨gf, prims, heq, hmesh, hmap, _, _⟩ :=
    addMesh_spec g ⟨.TRIANGLES, [matB], [f]⟩ rfl hval
  have hruns : (allRuns none (([f].map (fun fc => fc.materialIndex)))) = [0] := by
    simp [allRuns, newRuns, hfm]
  rw [hruns] at hmap
  simp only [List.map_cons, List.map_nil, runView] at hmap
  obtain ⟨p, hp, hrest⟩ : ∃ p, prims = [p] ∧
      primView p = (some 0, runNeedsColor [matB] 0) := by
    cases prims with
    | nil => simp at hmap
    | cons p rest =>
      cases rest with
      | nil =>
        simp only [List.map_cons, List.map_nil, List.cons.injEq, and_true] at hmap
        exact ⟨p, rfl, by simpa using hmap⟩
      | cons q rest2 => simp at hmap
  have hpm : p.material = some 0 := by
    have := congrArg Prod.fst hrest
    simpa [primView] using this
  refine ⟨gf, p, ?_, ?_, ?_, hpm, ?_⟩
  · simpa using heq
  · rw [hmesh, hp]
  · unfold addMaterials
    cases ham : addMaterial { g with meshes := some (g.meshes.getD []) } matB with
    | mk ga i =>
      simp only [ham, addMaterials]
      have hi : i = (g.materials.getD []).length := by
        have h2 := congrArg Prod.snd ham
        simp only [] at h2
        rw [← h2]
        exact addMaterial_index_nopbr _ matB hpbr
      simp [hi]
  · rw [hpm]
    intro hcontra
    injection hcontra with hcontra
    omega

/-- C1 witness: a document with one existing material, then a one-material
mesh whose face uses mesh-local index 0 — the registration assigns document
index 1, the primitive still says 0. -/
theorem c1_witness :
    ((⟨⟨0, 0, 0, 0, 0, 1, 0, 0, none⟩, ⟨0, 0, 0, 0, 0, 1, 0, 0, none⟩,
        ⟨0, 0, 0, 0, 0, 1, 0, 0, none⟩, none, 0⟩ : Face).materialIndex = 0 ∧
      (⟨some "B", .OPAQUE, 1, false, .NoColors, none⟩ : Material).pbrMetallicRoughness =
        none ∧
      1 ≤ (({ createEmptyGLTF ⟨.External, .DataURI⟩ with
        materials := some [{ name := some "A" }] } : glTF).materials.getD []).length) ∧
    (∃ gf p,
      addMesh { createEmptyGLTF ⟨.External, .DataURI⟩ with
          materials := some [{ name := some "A" }] }
        ⟨.TRIANGLES, [⟨some "B", .OPAQUE, 1, false, .NoColors, none⟩],
          [⟨⟨0, 0, 0, 0, 0, 1, 0, 0, none⟩, ⟨0, 0, 0, 0, 0, 1, 0, 0, none⟩,
            ⟨0, 0, 0, 0, 0, 1, 0, 0, none⟩, none, 0⟩]⟩ =
        (gf, .ok ((({ createEmptyGLTF ⟨.External, .DataURI⟩ with
          materials := some [{ name := some "A" }] } : glTF).meshes.getD []).length)) ∧
      gf.meshes.getD [] =
        ({ createEmptyGLTF ⟨.External, .DataURI⟩ with
          materials := some [{ name := some "A" }] } : glTF).meshes.getD [] ++ [⟨[p]⟩] ∧
      (addMaterials { ({ createEmptyGLTF ⟨.External, .DataURI⟩ with
            materials := some [{ name := some "A" }] } : glTF) with
          meshes := some (({ createEmptyGLTF ⟨.External, .DataURI⟩ with
            materials := some [{ name := some "A" }] } : glTF).meshes.getD []) }
          [⟨some "B", .OPAQUE, 1, false, .NoColors, none⟩]).2 =
        [(({ createEmptyGLTF ⟨.External, .DataURI⟩ with
          materials := some [{ name := some "A" }] } : glTF).materials.getD []).length] ∧
      p.material = some 0 ∧
      p.material ≠ some ((({ createEmptyGLTF ⟨.External, .DataURI⟩ with
        materials := some [{ name := some "A" }] } : glTF).materials.getD []).length : ℤ)) :=
  ⟨⟨rfl, rfl, by decide⟩,
    c1_material_not_remapped
      { createEmptyGLTF ⟨.External, .DataURI⟩ with materials := some [{ name := some "A" }] }
      ⟨some "B", .OPAQUE, 1, false, .NoColors, none⟩
      ⟨⟨0, 0, 0, 0, 0, 1, 0, 0, none⟩, ⟨0, 0, 0, 0, 0, 1, 0, 0, none⟩,
        ⟨0, 0, 0, 0, 0, 1, 0, 0, none⟩, none, 0⟩
      rfl rfl (by decide)⟩

theorem addSceneNodes_ew (g : glTF) (ns : NodeList) :
    ExtendsWrites g (addSceneNodes g ns).1 := by
  cases ns with
  | nil => exact extendsWrites_refl g
  | cons n rest =>
    obtain ⟨_, _, hew⟩ := addNode_preserves g n
    rcases hn : addNode g n with ⟨g1, r1⟩
    rw [hn] at hew
    cases r1 with
    | ok i =>
      have ih := addSceneNodes_ew g1 rest
      simp only [addSceneNodes, hn]
      cases hr : addSceneNodes g1 rest with
      | mk g2 r2 =>
        rw [hr] at ih
        cases r2 with
        | ok is => exact extendsWrites_trans hew ih
        | error e => exact extendsWrites_trans hew ih
    | error e =>
      simp only [addSceneNodes, hn]
      exact hew

theorem addScene_ew (g : glTF) (s : Scene) :
    ExtendsWrites g (addScene g s).1 := by
  unfold addScene
  have h0 : ExtendsWrites g { g with scenes := some (g.scenes.getD []) } :=
    extendsWrites_of_eq rfl rfl
  have h1 := addSceneNodes_ew { g with scenes := some (g.scenes.getD []) } s.nodes
  cases hr : addSceneNodes { g with scenes := some (g.scenes.getD []) } s.nodes with
  | mk g1 r =>
    rw [hr] at h1
    cases r with
    | ok idxs =>
      simp only [hr]
      exact extendsWrites_trans h0 (extendsWrites_trans h1 (extendsWrites_of_eq rfl rfl))
    | error e =>
      simp only [hr]
      exact extendsWrites_trans h0 h1

theorem foldScenes_ew (ss : List Scene) (g : glTF) :
    ExtendsWrites g (foldScenes g ss).1 := by
  induction ss generalizing g with
  | nil => exact extendsWrites_refl g
  | cons sc rest ih =>
    have h1 := addScene_ew g sc
    cases hr : addScene g sc with
    | mk g1 r =>
      rw [hr] at h1
      cases r with
      | ok u =>
        cases u
        simp only [foldScenes, hr]
        exact extendsWrites_trans h1 (ih g1)
      | error e =>
        simp only [foldScenes, hr]
        exact h1

/-- Modelled from the spec: an observable completion event of the build's
asynchronous epilogue — resolution of one dispatched write's promise, or
the container buffer's finalize completing. -/
inductive CEvent where
  | resolve (token : ℕ)
  | finalizeDone
  deriving DecidableEq

/-- Event `a` occurs strictly before event `b` in the completion order. -/
def eventBefore (order : List CEvent) (a b : CEvent) : Prop :=
  ∃ i j, i < j ∧ order.get? i = some a ∧ order.get? j = some b

/-- Modelled from the spec: Buffer.finalize (src/buffer.ts, absent from
src/) awaits every pending asynchronous write destined for the buffer
before completing.  An admissible completion order for a finished document
therefore contains the container buffer's finalizeDone, preceded by the
resolution of every dispatched write destined for that buffer. -/
def ValidCompletion (g : glTF) (order : List CEvent) : Prop :=
  (∃ j, order.get? j = some CEvent.finalizeDone) ∧
  ∀ w ∈ g.extras.asyncWrites,
    w.bufferId = g.extras.binChunkBuffer.getD 0 →
    eventBefore order (CEvent.resolve w.token) CEvent.finalizeDone

/-- C2: in GLB image-output mode, every build that succeeds calls the
container buffer's finalize (gltf.ts:28) after the whole scene walk, on the
shared bin chunk buffer (index 0), and every asynchronous image write
dispatched during the walk is destined for that same buffer; hence in any
admissible completion order — finalize awaiting the pending writes of its
buffer — each image write resolves before the finalize completes. -/
theorem c2_glb_finalize_after_writes (g0 : glTF) (asset : GLTFAsset) (gf : glTF)
    (hglbi : g0.extras.options.imageOutputType = ImageOutputType.GLB)
    (hbuf : g0.extras.buffers = [])
    (hwr : g0.extras.asyncWrites = [])
    (hok : addScenes g0 asset = (gf, .ok ())) :
    ∃ gmid : glTF,
      gf = finalizeBuffer gmid (gmid.extras.binChunkBuffer.getD 0) ∧
      gmid.extras.binChunkBuffer = some 0 ∧
      gf.extras.binChunkBuffer = some 0 ∧
      gf.extras.asyncWrites = gmid.extras.asyncWrites ∧
      (∀ w ∈ gf.extras.asyncWrites, w.bufferId = 0) ∧
      (∀ order, ValidCompletion gf order →
        ∀ w ∈ gf.extras.asyncWrites,
          eventBefore order (CEvent.resolve w.token) CEvent.finalizeDone) := by
  simp only [addScenes] at hok
  have hglb : ({ g0 with scene := some asset.defaultScene } : glTF).extras.options.bufferOutputType = BufferOutputType.GLB ∨
      ({ g0 with scene := some asset.defaultScene } : glTF).extras.options.imageOutputType = ImageOutputType.GLB :=
    Or.inr hglbi
  rw [if_pos hglb] at hok
  have hsb : (setupBinChunk { g0 with scene := some asset.defaultScene }).extras.binChunkBuffer = some 0 := by
    simp [setupBinChunk, addBuffer, hbuf]
  have hsw : (setupBinChunk { g0 with scene := some asset.defaultScene }).extras.asyncWrites = [] := by
    simp [setupBinChunk, addBuffer, hwr]
  have hew := foldScenes_ew asset.scenes (setupBinChunk { g0 with scene := some asset.defaultScene })
  cases hfs : foldScenes (setupBinChunk { g0 with scene := some asset.defaultScene }) asset.scenes with
  | mk g3 r =>
    rw [hfs] at hok hew
    cases r with
    | error e => simp at hok
    | ok u =>
      cases u
      simp only [hglbi, or_true, if_true] at hok
      have hgf : gf = finalizeBuffer g3 (g3.extras.binChunkBuffer.getD 0) :=
        (congrArg Prod.fst hok).symm
      obtain ⟨hb, tail, ha, htail⟩ := hew
      have hb3 : g3.extras.binChunkBuffer = some 0 := by rw [hb, hsb]
      have hw3 : ∀ w ∈ g3.extras.asyncWrites, w.bufferId = 0 := by
        intro w hw
        rw [ha, hsw] at hw
        simp only [List.nil_append] at hw
        have := htail w hw
        rw [hsb] at this
        simpa using this
      subst hgf
      refine ⟨g3, rfl, hb3, ?_, rfl, ?_, ?_⟩
      · show g3.extras.binChunkBuffer = some 0
        exact hb3
      · show ∀ w ∈ g3.extras.asyncWrites, w.bufferId = 0
        exact hw3
      · intro order hvc w hw
        obtain ⟨hjex, hord⟩ := hvc
        refine hord w hw ?_
        show w.bufferId = g3.extras.binChunkBuffer.getD 0
        rw [hb3, hw3 w hw]
        rfl

/-- C2 witness: a GLB-image-mode build of an empty asset — the finalize of
container buffer 0 is applied after the scene walk. -/
theorem c2_witness :
    ((createEmptyGLTF ⟨.External, .GLB⟩).extras.options.imageOutputType =
        ImageOutputType.GLB ∧
      (createEmptyGLTF ⟨.External, .GLB⟩).extras.buffers = [] ∧
      (createEmptyGLTF ⟨.External, .GLB⟩).extras.asyncWrites = [] ∧
      addScenes (createEmptyGLTF ⟨.External, .GLB⟩) ⟨0, []⟩ =
        ((addScenes (createEmptyGLTF ⟨.External, .GLB⟩) ⟨0, []⟩).1, .ok ())) ∧
    (∃ gmid : glTF,
      (addScenes (createEmptyGLTF ⟨.External, .GLB⟩) ⟨0, []⟩).1 =
        finalizeBuffer gmid (gmid.extras.binChunkBuffer.getD 0) ∧
      gmid.extras.binChunkBuffer = some 0 ∧
      (addScenes (createEmptyGLTF ⟨.External, .GLB⟩) ⟨0, []⟩).1.extras.binChunkBuffer =
        some 0 ∧
      (addScenes (createEmptyGLTF ⟨.External, .GLB⟩) ⟨0, []⟩).1.extras.asyncWrites =
        gmid.extras.asyncWrites ∧
      (∀ w ∈ (addScenes (createEmptyGLTF ⟨.External, .GLB⟩) ⟨0, []⟩).1.extras.asyncWrites,
        w.bufferId = 0) ∧
      (∀ order,
        ValidCompletion (addScenes (createEmptyGLTF ⟨.External, .GLB⟩) ⟨0, []⟩).1 order →
        ∀ w ∈ (addScenes (createEmptyGLTF ⟨.External, .GLB⟩) ⟨0, []⟩).1.extras.asyncWrites,
          eventBefore order (CEvent.resolve w.token) CEvent.finalizeDone)) :=
  ⟨⟨rfl, rfl, rfl, by decide⟩,
    c2_glb_finalize_after_writes (createEmptyGLTF ⟨.External, .GLB⟩) ⟨0, []⟩
      (addScenes (createEmptyGLTF ⟨.External, .GLB⟩) ⟨0, []⟩).1
      rfl rfl rfl (by decide)⟩

end GltfJsUtils
